import Mathlib

/-!
Shallow embedding of the core of `osm-replication-rust`, an OpenStreetMap
replication tool, together with proofs about its specification.

The embedding covers:
* the packed integer / coordinate conversions of `src/osmbin.rs`
  (`bytes5_to_int`, `int_to_bytes5`, `bytes4_to_coord`, `coord_to_bytes4`,
  `bytes2_to_int`, `int_to_bytes2`, `to_digits`);
* the on-disk store `OsmBin` (`node.crd`, `way.idx`, `way.data`, the way
  free-list, the per-relation files) with its read / write / update
  operations.  Files are modelled as total byte maps (`Nat → Nat`) that are
  zero outside the written area: this captures both sparse files and reads
  past the end of file (`read_exact_allow_eof` fills the caller's
  zero-initialised buffer, so a read past EOF yields zero bytes);
* the read cache `OsmCache` of `src/osmcache.rs`;
* the polygon-tree child ordering of `src/diffs.rs` (`get_poly_from_path`);
* the polygon filter of `src/osmxml/filter.rs` (`update_node`,
  `update_way`, `update_relation` and the `*_in_poly` helpers).

Conventions:
* Rust `panic!` / `unwrap` on a modelled failure is `Except.error`; a panic
  aborts the process, so the partially mutated state is unobservable and is
  not modelled.
* `u64` / `u32` / `u16` / `i32` values are `Nat` / `Int` with explicit
  `% 2 ^ w` wrapping where the source can overflow.
* Geometry (`geo` / `geos` crates: point-in-polygon and
  bounding-box/polygon intersection) is external to the repository and is
  modelled as abstract boolean predicates.
-/

namespace OsmRepl

/-! ### Bytes and packed integers (`src/osmbin.rs`) -/

/-- Value of a big-endian byte list, as in `u64::from_be_bytes` /
`u32::from_be_bytes` / `u16::from_be_bytes`. -/
def bytesToNatBE (bs : List Nat) : Nat :=
  bs.foldl (fun acc b => acc * 256 + b) 0

/-- Big-endian byte list of length `k` of `n % 256 ^ k`, as produced by
`to_be_bytes` followed by slicing the low `k` bytes. -/
def natToBytesBE : Nat → Nat → List Nat
  | 0, _ => []
  | k + 1, n => natToBytesBE k (n / 256) ++ [n % 256]

/-- Wrap an unbounded integer into `u32` range, as a Rust `as u32` cast. -/
def toU32 (n : Int) : Nat := (n % (2 ^ 32 : Nat)).toNat

/-- Wrap an unbounded integer into `i32` range, as a Rust `as i32` cast. -/
def toI32 (n : Int) : Int := (n + 2 ^ 31) % 2 ^ 32 - 2 ^ 31

/-- The `u64` modulus: arithmetic on ids wraps at `2 ^ 64` in release mode. -/
def U64 : Nat := 2 ^ 64

namespace OsmBin

/-- `OsmBin::bytes5_to_int`: a 5-byte big-endian unsigned value. -/
def bytes5_to_int (d : List Nat) : Nat := bytesToNatBE d

/-- `OsmBin::int_to_bytes5`: panics when `d > 2 ^ 40` (note: strict, so
`d = 2 ^ 40` itself is accepted and silently truncated to 5 low bytes),
otherwise the low 5 bytes of `d` in big-endian order. -/
def int_to_bytes5 (d : Nat) : Except String (List Nat) :=
  if d > 2 ^ 40 then .error "Integer do not fit on 5 bytes"
  else .ok (natToBytesBE 5 d)

/-- `OsmBin::bytes4_to_int`. -/
def bytes4_to_int (d : List Nat) : Nat := bytesToNatBE d

/-- `OsmBin::int_to_bytes4`. -/
def int_to_bytes4 (d : Nat) : List Nat := natToBytesBE 4 d

/-- `OsmBin::bytes4_to_coord`: the stored unsigned value shifted down by
`1_800_000_000` and cast to `i32`. -/
def bytes4_to_coord (d : List Nat) : Int :=
  toI32 ((bytes4_to_int d : Int) - 1800000000)

/-- `OsmBin::coord_to_bytes4`: the decimicro coordinate shifted up by
`1_800_000_000` and cast to `u32`, stored big-endian. -/
def coord_to_bytes4 (d : Int) : List Nat :=
  int_to_bytes4 (toU32 (d + 1800000000))

/-- `OsmBin::bytes2_to_int`. -/
def bytes2_to_int (d : List Nat) : Nat := bytesToNatBE d

/-- `OsmBin::int_to_bytes2`. -/
def int_to_bytes2 (d : Nat) : List Nat := natToBytesBE 2 (d % 2 ^ 16)

/-- Decimal digits, low digit first, with structural fuel (the `while v > 0`
loop of `OsmBin::to_digits` runs once per digit, and a number has at most
`v` digits, so `fuel = v` never runs out). -/
def natDigitsLowGo : Nat → Nat → List Nat
  | 0, _ => []
  | fuel + 1, v => if v = 0 then [] else v % 10 :: natDigitsLowGo fuel (v / 10)

/-- Decimal digits of `v`, low digit first (the loop body of
`OsmBin::to_digits`). -/
def natDigitsLow (v : Nat) : List Nat := natDigitsLowGo v v

/-- `OsmBin::to_digits`: decimal digits of `v`, zero-padded on the high side
to at least 9 digits, high digit first. -/
def to_digits (v : Nat) : List Nat :=
  (natDigitsLow v ++ List.replicate (9 - (natDigitsLow v).length) 0).reverse

/-- Key of the per-relation file of id `id`: the file lives at
`relation/AAA/BBB/CCC` where `AAA`, `BBB`, `CCC` are
`to_digits id` indices `0..3`, `3..6` and `6..9`.  The key is the
concatenation of those nine digits. -/
def relationKey (id : Nat) : List Nat := (to_digits id).take 9

end OsmBin

/-! ### OSM data model (`src/osm.rs`) -/

/-- Bounding-box of latitude/longitude in decimicro degrees. -/
structure BoundingBox where
  decimicro_minlat : Int
  decimicro_maxlat : Int
  decimicro_minlon : Int
  decimicro_maxlon : Int
deriving DecidableEq

/-- Node, as in `src/osm.rs` (the `Default` values of the Rust struct are
the field defaults). -/
structure Node where
  id : Nat
  decimicro_lat : Int := 0
  decimicro_lon : Int := 0
  tags : Option (List (String × String)) := none
  version : Option Nat := none
  timestamp : Option String := none
  uid : Option Nat := none
  user : Option String := none
  changeset : Option Nat := none
deriving DecidableEq

/-- Way, as in `src/osm.rs`. -/
structure Way where
  id : Nat
  nodes : List Nat := []
  tags : Option (List (String × String)) := none
  version : Option Nat := none
  timestamp : Option String := none
  uid : Option Nat := none
  user : Option String := none
  changeset : Option Nat := none
  bbox : Option BoundingBox := none
deriving DecidableEq

/-- Relation member, as in `src/osm.rs`. -/
structure Member where
  ref_ : Nat
  role : String
  type_ : String
deriving DecidableEq

/-- Relation, as in `src/osm.rs`. -/
structure Relation where
  id : Nat
  members : List Member := []
  tags : Option (List (String × String)) := none
  version : Option Nat := none
  timestamp : Option String := none
  uid : Option Nat := none
  user : Option String := none
  changeset : Option Nat := none
  bbox : Option BoundingBox := none
deriving DecidableEq

/-- Action applied to an element of a change file, as in `src/osm.rs`. -/
inductive Action where
  | Create
  | Modify
  | Delete
  | None
deriving DecidableEq

/-! ### `OsmCache` (`src/osmcache.rs`)

The three `FxHashMap`s are modelled as functions into `Option`: `f id = none`
means the id is not a key of the map, `f id = some v` that it is mapped to
`v` (itself an `Option`: `none` is the cached "absent" answer). -/

/-- Read cache for nodes, ways and relations. -/
structure OsmCache where
  nodes : Nat → Option (Option (Int × Int))
  ways : Nat → Option (Option (List Nat))
  relations : Nat → Option (Option Relation)

/-- The empty cache (`OsmCache::default`). -/
def OsmCache.default : OsmCache :=
  { nodes := fun _ => none, ways := fun _ => none, relations := fun _ => none }

/-- Insert a binding into a map modelled as a function. -/
def mapInsert {α : Type} (f : Nat → Option α) (k : Nat) (v : α) : Nat → Option α :=
  fun j => if j = k then some v else f j

/-- `OsmCache::read_node`: panics when the id is not a key of the map;
otherwise rebuilds a `Node` from the cached coordinate pair (or returns the
cached "absent"). -/
def OsmCache.read_node (c : OsmCache) (id : Nat) : Except String (Option Node) :=
  match c.nodes id with
  | some (some (la, lo)) =>
      .ok (some { id := id, decimicro_lat := la, decimicro_lon := lo, tags := none })
  | some none => .ok none
  | none => .error "Node not found"

/-- `OsmCache::read_way`: panics when the id is not a key of the map. -/
def OsmCache.read_way (c : OsmCache) (id : Nat) : Except String (Option Way) :=
  match c.ways id with
  | some (some nodes) => .ok (some { id := id, nodes := nodes, tags := none })
  | some none => .ok none
  | none => .error "Way not found"

/-- `OsmCache::read_relation`: panics when the id is not a key of the map. -/
def OsmCache.read_relation (c : OsmCache) (id : Nat) : Except String (Option Relation) :=
  match c.relations id with
  | some relation => .ok relation
  | none => .error "Relation not found"

/-! ### Byte files

The store's binary files are total maps from offset to byte together with the
logical stream position (the buffered reader/writer of
`src/bufreaderwriter.rs` makes `stream_position` the logical position and
flushes transparently on mode changes, so contents and position model the
observable file state).  Offsets outside the written area read as zero,
covering both sparse holes and `read_exact_allow_eof`.

`read_exact_allow_eof` itself is not under `src/`; it is modelled from the
spec: reading crosses EOF by leaving the caller's zero-initialised buffer
untouched, so bytes past the end of file read as zero. -/

/-- A binary file: contents and current stream position. -/
structure ByteFile where
  data : Nat → Nat
  pos : Nat

/-- Overwrite `bs.length` bytes of `f` starting at offset `a`. -/
def writeBytes (f : Nat → Nat) (a : Nat) (bs : List Nat) : Nat → Nat :=
  fun j => if a ≤ j ∧ j < a + bs.length then bs.getD (j - a) 0 else f j

/-- Read `n` bytes of `f` starting at offset `a`. -/
def readBytes (f : Nat → Nat) (a n : Nat) : List Nat :=
  (List.range n).map fun i => f (a + i)

namespace OsmBin

/-! ### `OsmBin` store state (`src/osmbin.rs`) -/

/-- State of an open `OsmBin` database.  `way_free_data` is the in-memory
free-list: one bucket of `way.data` offsets per node count; the head of the
list is the end of the Rust `Vec`, so `push` conses and `pop` takes the
head.  `relationFiles` maps the nine-digit path of a relation file to the
relation stored in it; the JSON serialization of `src/osm.rs` round-trips a
`Relation` exactly (fields equal to `None` are skipped on write and restored
as `None` on read), so the file content is modelled as the record itself. -/
structure State where
  node_crd : ByteFile
  way_idx : ByteFile
  way_data : ByteFile
  way_free_data : Nat → List Nat
  node_crd_init_size : Nat
  way_idx_init_size : Nat
  way_data_size : Nat
  relationFiles : List Nat → Option Relation
  cache : OsmCache

/-- A freshly initialised and opened database (`OsmBin::init` then
`OsmBin::new_writer` on the new directory): all files empty except
`way.data`, which starts with the two reserved sentinel bytes `"--"`. -/
def freshState : State where
  node_crd := ⟨fun _ => 0, 0⟩
  way_idx := ⟨fun _ => 0, 0⟩
  way_data := ⟨fun j => if j < 2 then 45 else 0, 0⟩
  way_free_data := fun _ => []
  node_crd_init_size := 0
  way_idx_init_size := 0
  way_data_size := 2
  relationFiles := fun _ => none
  cache := OsmCache.default

/-- `OsmBin::read_node`.  The cache is consulted first (`OsmCache::read_node`
cannot panic there because the key was just checked).  Otherwise the 8-byte
slot at `id * 8` of `node.crd` is read — the gap-crossing scratch read and
the relative seek of the source only differ in buffering, both leave the
position after the slot — and an all-zero slot means absent.  The result is
inserted into the cache. -/
def read_node (s : State) (id : Nat) : Except String (Option Node × State) :=
  match s.cache.nodes id with
  | some _v => (OsmCache.read_node s.cache id).map (fun r => (r, s))
  | none =>
    let node_crd_addr := id * 8 % U64
    let lat_buffer := readBytes s.node_crd.data node_crd_addr 4
    let lon_buffer := readBytes s.node_crd.data (node_crd_addr + 4) 4
    let s := { s with node_crd.pos := node_crd_addr + 8 }
    if lat_buffer = List.replicate 4 0 ∧ lon_buffer = List.replicate 4 0 then
      .ok (none, { s with cache.nodes := mapInsert s.cache.nodes id none })
    else
      let decimicro_lat := bytes4_to_coord lat_buffer
      let decimicro_lon := bytes4_to_coord lon_buffer
      .ok (some { id := id, decimicro_lat := decimicro_lat, decimicro_lon := decimicro_lon,
                  tags := none },
           { s with cache.nodes := mapInsert s.cache.nodes id (some (decimicro_lat, decimicro_lon)) })

/-- `OsmBin::read_way`.  Cache first; then the 5-byte pointer at `id * 5` of
`way.idx` (all-zero means absent), then the record in `way.data`: 2-byte
node count (zero count at a live pointer panics) followed by the node ids
(an all-zero id panics). -/
def read_way (s : State) (id : Nat) : Except String (Option Way × State) :=
  match s.cache.ways id with
  | some _v => (OsmCache.read_way s.cache id).map (fun r => (r, s))
  | none =>
    let way_idx_addr := id * 5 % U64
    let buffer := readBytes s.way_idx.data way_idx_addr 5
    let s := { s with way_idx.pos := way_idx_addr + 5 }
    if buffer = List.replicate 5 0 then
      .ok (none, { s with cache.ways := mapInsert s.cache.ways id none })
    else
      let way_data_addr := bytes5_to_int buffer
      let cnt := readBytes s.way_data.data way_data_addr 2
      if cnt = List.replicate 2 0 then
        .error "Should have gotten way num_nodes"
      else
        let num_nodes := bytes2_to_int cnt
        let idBytes := (List.range num_nodes).map fun i =>
          readBytes s.way_data.data (way_data_addr + 2 + 5 * i) 5
        if idBytes.any (· = List.replicate 5 0) then
          .error "Should have gotten way node id"
        else
          let nodes := idBytes.map bytes5_to_int
          let s := { s with way_data.pos := way_data_addr + 2 + 5 * num_nodes }
          .ok (some { id := id, nodes := nodes, tags := none },
               { s with cache.ways := mapInsert s.cache.ways id (some nodes) })

/-- `OsmBin::read_relation`.  Cache first; otherwise the per-id file under
`relation/` (a missing file is absent, not an error). -/
def read_relation (s : State) (id : Nat) : Except String (Option Relation × State) :=
  match s.cache.relations id with
  | some _v => (OsmCache.read_relation s.cache id).map (fun r => (r, s))
  | none =>
    match s.relationFiles (relationKey id) with
    | none => .ok (none, { s with cache.relations := mapInsert s.cache.relations id none })
    | some u => .ok (some u, { s with cache.relations := mapInsert s.cache.relations id (some u) })

/-- `OsmBin::write_node`: seek (or, for a small forward gap beyond the
initial file size, zero-pad in place) to `id * 8` in `node.crd`, then write
the two 4-byte shifted coordinates.  The cache is not touched. -/
def write_node (s : State) (node : Node) : State :=
  let lat := coord_to_bytes4 node.decimicro_lat
  let lon := coord_to_bytes4 node.decimicro_lon
  let node_crd_addr := node.id * 8 % U64
  let cur_position := s.node_crd.pos
  let s :=
    if cur_position ≠ node_crd_addr then
      if s.node_crd_init_size < cur_position ∧ s.node_crd_init_size < node_crd_addr ∧
          cur_position < node_crd_addr ∧ node_crd_addr - cur_position < 4096 then
        { s with node_crd :=
            ⟨writeBytes s.node_crd.data cur_position
               (List.replicate (node_crd_addr - cur_position) 0), node_crd_addr⟩ }
      else
        { s with node_crd.pos := node_crd_addr }
    else s
  { s with node_crd := ⟨writeBytes s.node_crd.data node_crd_addr (lat ++ lon), node_crd_addr + 8⟩ }

/-- The `Action::Delete` branch of `OsmBin::update_way`: read the `way.idx`
slot (zero bytes past EOF); an all-zero slot returns at once.  Otherwise,
read the record's node count (a zero count panics), push the record offset
onto the free-list bucket of that count, zero the 2-byte count and zero the
`way.idx` slot. -/
def update_way_delete (s : State) (wayId : Nat) : Except String State :=
  let way_idx_addr := wayId * 5 % U64
  let buffer := readBytes s.way_idx.data way_idx_addr 5
  let s := { s with way_idx.pos := way_idx_addr + 5 }
  if buffer = List.replicate 5 0 then
    .ok s
  else
    let way_data_addr := bytes5_to_int buffer
    let cnt := readBytes s.way_data.data way_data_addr 2
    if cnt = List.replicate 2 0 then
      .error "Should have gotten way num_nodes"
    else
      let num_nodes := bytes2_to_int cnt
      .ok { s with
              way_free_data := fun k =>
                if k = num_nodes then way_data_addr :: s.way_free_data num_nodes
                else s.way_free_data k,
              way_data := ⟨writeBytes s.way_data.data way_data_addr [0, 0], way_data_addr + 2⟩,
              way_idx := ⟨writeBytes s.way_idx.data way_idx_addr (List.replicate 5 0),
                          way_idx_addr + 5⟩ }

/-- The allocation and writing part of `OsmBin::write_way` (everything after
the initial conditional delete): allocate the record offset by popping the
free-list bucket of the exact node count, falling back to the current end of
`way.data`; write the record (count, then the 5-byte node ids, which panic
above `2 ^ 40`); store the 5-byte offset in `way.idx` (seek or zero-pad as
for nodes); finally grow `way_data_size` to the position after the record. -/
def write_way_alloc (s : State) (way : Way) : Except String State :=
  let way_idx_addr := way.id * 5 % U64
  let num_nodes := way.nodes.length % 2 ^ 16
  let way_data_addr :=
    match s.way_free_data num_nodes with
    | [] => s.way_data_size
    | a :: _ => a
  let s := { s with way_free_data := fun k =>
               if k = num_nodes then (s.way_free_data num_nodes).tail else s.way_free_data k }
  match way.nodes.mapM int_to_bytes5 with
  | .error e => .error e
  | .ok idBytes =>
    let record := int_to_bytes2 num_nodes ++ idBytes.flatten
    let s := { s with way_data :=
                 ⟨writeBytes s.way_data.data way_data_addr record, way_data_addr + record.length⟩ }
    match int_to_bytes5 way_data_addr with
    | .error e => .error e
    | .ok ptrBytes =>
      let cur_position := s.way_idx.pos
      let s :=
        if cur_position ≠ way_idx_addr then
          if s.way_idx_init_size < cur_position ∧ s.way_idx_init_size < way_idx_addr ∧
              cur_position < way_idx_addr ∧ way_idx_addr - cur_position < 4096 then
            { s with way_idx :=
                ⟨writeBytes s.way_idx.data cur_position
                   (List.replicate (way_idx_addr - cur_position) 0), way_idx_addr⟩ }
          else
            { s with way_idx.pos := way_idx_addr }
        else s
      let s := { s with way_idx :=
                   ⟨writeBytes s.way_idx.data way_idx_addr ptrBytes, way_idx_addr + 5⟩ }
      .ok { s with way_data_size := max s.way_data_size s.way_data.pos }

/-- `OsmBin::write_way`: delete the way first when its `way.idx` slot could
lie inside the initial file, then allocate and write
(`write_way_alloc`). -/
def write_way (s : State) (way : Way) : Except String State :=
  let way_idx_addr := way.id * 5 % U64
  match (if way_idx_addr < s.way_idx_init_size then update_way_delete s way.id else .ok s) with
  | .error e => .error e
  | .ok s => write_way_alloc s way

/-- `OsmBin::write_relation`: store the relation in its per-id file (the
serde round-trip preserves the record, see `State.relationFiles`). -/
def write_relation (s : State) (relation : Relation) : State :=
  { s with relationFiles := fun k =>
      if k = relationKey relation.id then some relation else s.relationFiles k }

/-- `OsmBin::update_node`: `Delete` overwrites the 8-byte slot with zeros;
any other action writes the node. -/
def update_node (s : State) (node : Node) (action : Action) : State :=
  if action = Action.Delete then
    { s with node_crd :=
        ⟨writeBytes s.node_crd.data (node.id * 8 % U64) (List.replicate 8 0),
         node.id * 8 % U64 + 8⟩ }
  else
    write_node s node

/-- `OsmBin::update_way`. -/
def update_way (s : State) (way : Way) (action : Action) : Except String State :=
  if action = Action.Delete then update_way_delete s way.id
  else write_way s way

/-- `OsmBin::update_relation`: `Delete` removes the per-id file, tolerating a
missing file; any other action writes the relation. -/
def update_relation (s : State) (relation : Relation) (action : Action) : State :=
  if action = Action.Delete then
    { s with relationFiles := fun k =>
        if k = relationKey relation.id then none else s.relationFiles k }
  else
    write_relation s relation

/-! ### Operation sequences on an open store -/

/-- One operation on an open store. -/
inductive Op where
  | readNode (id : Nat)
  | readWay (id : Nat)
  | readRelation (id : Nat)
  | writeNode (node : Node)
  | writeWay (way : Way)
  | writeRelation (relation : Relation)
  | updateNode (node : Node) (action : Action)
  | updateWay (way : Way) (action : Action)
  | updateRelation (relation : Relation) (action : Action)
deriving DecidableEq

/-- Apply one operation (read results are discarded, their cache effect is
kept). -/
def applyOp (s : State) : Op → Except String State
  | .readNode id => (read_node s id).map Prod.snd
  | .readWay id => (read_way s id).map Prod.snd
  | .readRelation id => (read_relation s id).map Prod.snd
  | .writeNode node => .ok (write_node s node)
  | .writeWay way => write_way s way
  | .writeRelation relation => .ok (write_relation s relation)
  | .updateNode node action => .ok (update_node s node action)
  | .updateWay way action => update_way s way action
  | .updateRelation relation action => .ok (update_relation s relation action)

/-- Apply a sequence of operations, propagating panics. -/
def applyOps (s : State) (ops : List Op) : Except String State :=
  ops.foldlM applyOp s

end OsmBin

/-! ### Polygon-tree child ordering (`src/diffs.rs`)

`Poly::get_poly_from_path` collects the children of a directory and sorts
them with `inners.sort_by(|a, b| a.file.unwrap_or(&none_path).to_str().cmp(...))`
where `none_path = PathBuf::from("None")`: the sort key of a child is its
polygon-file path, or the literal string `"None"` when it has no file.
Paths are compared as Rust `&str`, i.e. lexicographically on UTF-8 bytes, so
they are modelled as byte lists.  `sort_by` is a stable sort, and the stable
sort by a total preorder is unique, so `List.insertionSort` computes the
same list. -/

/-- A child entry of a polygon-tree node, reduced to its sort key input:
the polygon-file path (UTF-8 bytes), or `none` when the child has no
polygon file. -/
structure PolyEntry where
  file : Option (List Nat)
deriving DecidableEq

/-- Byte-wise lexicographic order on byte lists, as Rust `Ord` on `&str`. -/
def bytesLe : List Nat → List Nat → Bool
  | [], _ => true
  | _ :: _, [] => false
  | x :: xs, y :: ys => x < y || (x = y && bytesLe xs ys)

/-- The UTF-8 bytes of the literal string `"None"` used as the sort key of a
child without a polygon file. -/
def nonePathKey : List Nat := [78, 111, 110, 101]

/-- Sort key of a child: its polygon-file path, or the bytes of `"None"`. -/
def polyFileKey (p : PolyEntry) : List Nat := p.file.getD nonePathKey

/-- The sort applied to `inners` at the end of `Poly::get_poly_from_path`. -/
def sortInners (l : List PolyEntry) : List PolyEntry :=
  List.insertionSort (fun a b => bytesLe (polyFileKey a) (polyFileKey b) = true) l

/-! ### Polygon filter (`src/osmxml/filter.rs`)

The geometry of the `geo` / `geos` crates is external to the repository; a
polygon is an abstract type `P` with two boolean tests, one for
`point.intersects(&poly)` on a `(lon, lat)` decimicro point and one for
`bounding_box_to_polygon(bbox).intersects(&poly)`.

The filter's reader (an `OsmBin` database or a shared `OsmCache`) is a
function from id to result; `OsmBin` reads are repeatable (the cache is
transparent and the filter never writes), `OsmCache` reads are pure, and
either can panic, hence the `Except`.

The `HashSet`s of seen ids are modelled as lists with membership-guarded
insertion; the XML writer output is the list of emitted `(action, element)`
events (`write_action_start` only manages the `<create>/<modify>/<delete>`
grouping around them). -/

/-- Point-in-polygon and bbox-intersects-polygon tests for an abstract
polygon type `P`. -/
structure GeoOps (P : Type) where
  pointIntersects : Int × Int → P → Bool
  bboxIntersects : BoundingBox → P → Bool

/-- Reader used by the polygon filter. -/
structure ReaderFns where
  read_node : Nat → Except String (Option Node)
  read_way : Nat → Except String (Option Way)
  read_relation : Nat → Except String (Option Relation)

/-- A `HashSet<u64>` as a list with membership-guarded insertion. -/
def seenInsert (l : List Nat) (id : Nat) : List Nat :=
  if id ∈ l then l else id :: l

/-- The `PolyInfo` struct: one polygon with its per-kind seen-sets. -/
structure PolyInfo (P : Type) where
  poly : P
  nodes_seen_in_poly : List Nat
  ways_seen_in_poly : List Nat
  relations_seen_in_poly : List Nat

/-- An element emitted to the filtered change file, with the action group it
is written under. -/
inductive OutEvent where
  | node (action : Action) (n : Node)
  | way (action : Action) (w : Way)
  | relation (action : Action) (r : Relation)
deriving DecidableEq

namespace PolyInfo

variable {P : Type}

/-- `PolyInfo::node_in_poly`: seen-set first, then the reader's stored node;
the id is recorded when its stored point intersects the polygon. -/
def node_in_poly (geo : GeoOps P) (rd : ReaderFns) (pi : PolyInfo P) (id : Nat) :
    Except String (Bool × PolyInfo P) :=
  if id ∈ pi.nodes_seen_in_poly then .ok (true, pi)
  else
    match rd.read_node id with
    | .error e => .error e
    | .ok (some node) =>
      if geo.pointIntersects (node.decimicro_lon, node.decimicro_lat) pi.poly then
        .ok (true, { pi with nodes_seen_in_poly := seenInsert pi.nodes_seen_in_poly id })
      else
        .ok (false, pi)
    | .ok none => .ok (false, pi)

/-- `PolyInfo::nodes_in_poly`: `iter().any(...)`, short-circuiting but
keeping the seen-set effects of the checked prefix. -/
def nodes_in_poly (geo : GeoOps P) (rd : ReaderFns) (pi : PolyInfo P) :
    List Nat → Except String (Bool × PolyInfo P)
  | [] => .ok (false, pi)
  | n :: rest => do
    let (b, pi') ← node_in_poly geo rd pi n
    if b then .ok (true, pi') else nodes_in_poly geo rd pi' rest

/-- `PolyInfo::way_in_poly`: seen-set first, then the reader's stored way,
checking whether any of its nodes is in the polygon. -/
def way_in_poly (geo : GeoOps P) (rd : ReaderFns) (pi : PolyInfo P) (id : Nat) :
    Except String (Bool × PolyInfo P) :=
  if id ∈ pi.ways_seen_in_poly then .ok (true, pi)
  else do
    let way ← rd.read_way id
    match way with
    | some way => do
      let (b, pi') ← nodes_in_poly geo rd pi way.nodes
      if b then .ok (true, { pi' with ways_seen_in_poly := seenInsert pi'.ways_seen_in_poly id })
      else .ok (false, pi')
    | none => .ok (false, pi)

mutual

/-- `PolyInfo::members_in_poly` (`iter().any(...)` over the members).

The source's recursion guard only prints when a member relation is already
on the ancestor list and recurses anyway, so the Rust recursion has no
structural bound; `fuel` models the finite call stack, and running out of it
is the stack overflow of the unbounded recursion. -/
def members_in_poly (geo : GeoOps P) (rd : ReaderFns) (fuel : Nat) (pi : PolyInfo P)
    (members : List Member) (prev_relations : List Nat) :
    Except String (Bool × PolyInfo P) :=
  match members with
  | [] => .ok (false, pi)
  | m :: rest =>
    match m.type_ with
    | "node" => do
      let (b, pi') ← node_in_poly geo rd pi m.ref_
      if b then .ok (true, pi') else members_in_poly geo rd fuel pi' rest prev_relations
    | "way" => do
      let (b, pi') ← way_in_poly geo rd pi m.ref_
      if b then .ok (true, pi') else members_in_poly geo rd fuel pi' rest prev_relations
    | "relation" => do
      let (b, pi') ← relation_in_poly geo rd fuel pi m.ref_ (prev_relations ++ [m.ref_])
      if b then .ok (true, pi') else members_in_poly geo rd fuel pi' rest prev_relations
    | _ => .error "Unsupported relation member"
termination_by (fuel, members.length + 1)

/-- `PolyInfo::relation_in_poly`: seen-set first, then the reader's stored
relation, checking whether any member is in the polygon (see
`members_in_poly` for the fuel). -/
def relation_in_poly (geo : GeoOps P) (rd : ReaderFns) (fuel : Nat) (pi : PolyInfo P)
    (id : Nat) (prev_relations : List Nat) :
    Except String (Bool × PolyInfo P) :=
  match fuel with
  | 0 => .error "relation recursion exhausted the stack"
  | fuel + 1 =>
    if id ∈ pi.relations_seen_in_poly then .ok (true, pi)
    else do
      let relation ← rd.read_relation id
      match relation with
      | some relation => do
        let (b, pi') ← members_in_poly geo rd fuel pi relation.members prev_relations
        if b then
          .ok (true, { pi' with
                         relations_seen_in_poly := seenInsert pi'.relations_seen_in_poly id })
        else .ok (false, pi')
      | none => .ok (false, pi)
termination_by (fuel, 0)

end

end PolyInfo

/-- State of an `OsmXmlFilter`: the exact polygon and the buffered polygon,
each with its seen-sets. -/
structure FilterState (P : Type) where
  poly : PolyInfo P
  poly_buffered : PolyInfo P

namespace OsmXmlFilter

variable {P : Type}

/-- `OsmXmlFilter::update_node`.  The `||` of the source short-circuits: the
reader is consulted only when the new point is not in the buffered
polygon. -/
def update_node (geo : GeoOps P) (rd : ReaderFns) (st : FilterState P)
    (node : Node) (action : Action) : Except String (FilterState P × List OutEvent) :=
  let point := (node.decimicro_lon, node.decimicro_lat)
  match (if geo.pointIntersects point st.poly_buffered.poly then
           Except.ok (true, st.poly_buffered)
         else
           st.poly_buffered.node_in_poly geo rd node.id) with
  | .error e => .error e
  | .ok (in_poly_buffered, pb) =>
  let st := { st with poly_buffered := pb }
  if in_poly_buffered then
    if geo.pointIntersects point st.poly.poly then
      .ok ({ st with
               poly.nodes_seen_in_poly := seenInsert st.poly.nodes_seen_in_poly node.id,
               poly_buffered.nodes_seen_in_poly :=
                 seenInsert st.poly_buffered.nodes_seen_in_poly node.id },
           [OutEvent.node action node])
    else
      .ok ({ st with
               poly_buffered.nodes_seen_in_poly :=
                 seenInsert st.poly_buffered.nodes_seen_in_poly node.id },
           [OutEvent.node Action.Delete node])
  else
    .ok (st, [])

/-- The bounding-box gate shared by `update_way` and `update_relation`: an
entity with no bbox is never inside. -/
def insideBBox (geo : GeoOps P) (st : FilterState P) (bbox : Option BoundingBox) : Bool :=
  match bbox with
  | some bbox => geo.bboxIntersects bbox st.poly_buffered.poly
  | none => false

/-- `OsmXmlFilter::update_way`. -/
def update_way (geo : GeoOps P) (rd : ReaderFns) (st : FilterState P)
    (way : Way) (action : Action) : Except String (FilterState P × List OutEvent) := do
  if insideBBox geo st way.bbox then
    let (b, pe) ← st.poly.nodes_in_poly geo rd way.nodes
    let st := { st with poly := pe }
    if b then
      .ok ({ st with
               poly.ways_seen_in_poly := seenInsert st.poly.ways_seen_in_poly way.id,
               poly_buffered.ways_seen_in_poly :=
                 seenInsert st.poly_buffered.ways_seen_in_poly way.id },
           [OutEvent.way action way])
    else
      let (b1, pb) ← st.poly_buffered.nodes_in_poly geo rd way.nodes
      let st := { st with poly_buffered := pb }
      let (b2, pb2) ←
        if b1 then Except.ok (true, st.poly_buffered)
        else st.poly_buffered.way_in_poly geo rd way.id
      let st := { st with poly_buffered := pb2 }
      if b2 then
        .ok ({ st with
                 poly_buffered.ways_seen_in_poly :=
                   seenInsert st.poly_buffered.ways_seen_in_poly way.id },
             [OutEvent.way Action.Delete way])
      else
        .ok (st, [])
  else
    .ok (st, [])

/-- `OsmXmlFilter::update_relation` (`fuel` bounds the member recursion, see
`PolyInfo.members_in_poly`). -/
def update_relation (geo : GeoOps P) (rd : ReaderFns) (fuel : Nat) (st : FilterState P)
    (relation : Relation) (action : Action) : Except String (FilterState P × List OutEvent) := do
  if insideBBox geo st relation.bbox then
    let (b, pe) ← PolyInfo.members_in_poly geo rd fuel st.poly relation.members []
    let st := { st with poly := pe }
    if b then
      .ok ({ st with
               poly.relations_seen_in_poly :=
                 seenInsert st.poly.relations_seen_in_poly relation.id,
               poly_buffered.relations_seen_in_poly :=
                 seenInsert st.poly_buffered.relations_seen_in_poly relation.id },
           [OutEvent.relation action relation])
    else
      let (b1, pb) ← PolyInfo.members_in_poly geo rd fuel st.poly_buffered relation.members []
      let st := { st with poly_buffered := pb }
      let (b2, pb2) ←
        if b1 then Except.ok (true, st.poly_buffered)
        else PolyInfo.relation_in_poly geo rd fuel st.poly_buffered relation.id []
      let st := { st with poly_buffered := pb2 }
      if b2 then
        .ok ({ st with
                 poly_buffered.relations_seen_in_poly :=
                   seenInsert st.poly_buffered.relations_seen_in_poly relation.id },
             [OutEvent.relation Action.Delete relation])
      else
        .ok (st, [])
  else
    .ok (st, [])

end OsmXmlFilter

/-! ### Helper lemmas: bytes and byte files -/

theorem natToBytesBE_length (k n : Nat) : (natToBytesBE k n).length = k := by
  induction k generalizing n with
  | zero => rfl
  | succ k ih => simp [natToBytesBE, ih]

theorem bytesToNatBE_append_singleton (xs : List Nat) (b : Nat) :
    bytesToNatBE (xs ++ [b]) = bytesToNatBE xs * 256 + b := by
  simp [bytesToNatBE, List.foldl_append]

theorem bytesToNatBE_natToBytesBE (k n : Nat) (h : n < 256 ^ k) :
    bytesToNatBE (natToBytesBE k n) = n := by
  induction k generalizing n with
  | zero =>
    interval_cases n
    rfl
  | succ k ih =>
    rw [natToBytesBE, bytesToNatBE_append_singleton, ih]
    · omega
    · rw [pow_succ] at h
      omega

theorem readBytes_length (f : Nat → Nat) (a n : Nat) : (readBytes f a n).length = n := by
  simp [readBytes]

theorem readBytes_getD (f : Nat → Nat) (a n i : Nat) (hi : i < n) :
    (readBytes f a n).getD i 0 = f (a + i) := by
  rw [List.getD_eq_getElem _ _ (by simpa [readBytes_length] using hi)]
  simp [readBytes]

/-- Two byte lists of the same length agree when their `getD` views agree. -/
theorem list_eq_of_getD {xs ys : List Nat} (hlen : xs.length = ys.length)
    (h : ∀ i, i < xs.length → xs.getD i 0 = ys.getD i 0) : xs = ys := by
  apply List.ext_getElem hlen
  intro i hi hi2
  have := h i hi
  rwa [List.getD_eq_getElem _ _ hi, List.getD_eq_getElem _ _ hi2] at this

/-- Reading inside a just-written region returns the corresponding slice of
the written bytes. -/
theorem readBytes_writeBytes_slice (f : Nat → Nat) (a : Nat) (bs : List Nat) (j n : Nat)
    (h : j + n ≤ bs.length) :
    readBytes (writeBytes f a bs) (a + j) n = (bs.drop j).take n := by
  apply list_eq_of_getD
  · simp [readBytes_length, List.length_take, List.length_drop]
    omega
  · intro i hi
    rw [readBytes_length] at hi
    rw [readBytes_getD _ _ _ _ hi]
    have hcond : a ≤ a + j + i ∧ a + j + i < a + bs.length := by omega
    simp only [writeBytes, if_pos hcond]
    have hidx : a + j + i - a = j + i := by omega
    rw [hidx]
    rw [List.getD_eq_getElem _ _ (by omega),
        List.getD_eq_getElem _ _
          (by simp only [List.length_take, List.length_drop]; omega)]
    rw [List.getElem_take]
    rw [List.getElem_drop]

/-- Reading a region disjoint from a write is unaffected by it. -/
theorem readBytes_writeBytes_disjoint (f : Nat → Nat) (a : Nat) (bs : List Nat) (c n : Nat)
    (h : c + n ≤ a ∨ a + bs.length ≤ c) :
    readBytes (writeBytes f a bs) c n = readBytes f c n := by
  apply list_eq_of_getD
  · simp [readBytes_length]
  · intro i hi
    rw [readBytes_length] at hi
    rw [readBytes_getD _ _ _ _ hi, readBytes_getD _ _ _ _ hi]
    have hcond : ¬(a ≤ c + i ∧ c + i < a + bs.length) := by omega
    simp only [writeBytes, if_neg hcond]

/-- Reading inside a just-written run of zeros returns zeros. -/
theorem readBytes_writeBytes_replicate_zero (f : Nat → Nat) (a : Nat) (m : Nat) (j n : Nat)
    (h : j + n ≤ m) :
    readBytes (writeBytes f a (List.replicate m 0)) (a + j) n = List.replicate n 0 := by
  rw [readBytes_writeBytes_slice _ _ _ _ _ (by simpa using h)]
  rw [List.drop_replicate, List.take_replicate]
  congr 1
  omega

/-- Reading back exactly a just-written region returns the written bytes. -/
theorem readBytes_writeBytes_all (f : Nat → Nat) (a : Nat) (bs : List Nat) :
    readBytes (writeBytes f a bs) a bs.length = bs := by
  have h := readBytes_writeBytes_slice f a bs 0 bs.length (by omega)
  simpa using h

/-! ### Claim C9: `OsmCache` reads panic exactly on missing keys -/

/-- C9: for every id, `OsmCache::read_node` / `read_way` / `read_relation`
panic if and only if the id is not a key of the corresponding map, and an id
mapped to the absent value reads back as `None` without error. -/
theorem c9_cache_read_panics_iff_missing (c : OsmCache) (id : Nat) :
    ((c.read_node id).isOk = false ↔ c.nodes id = none) ∧
    (c.nodes id = some none → c.read_node id = .ok none) ∧
    ((c.read_way id).isOk = false ↔ c.ways id = none) ∧
    (c.ways id = some none → c.read_way id = .ok none) ∧
    ((c.read_relation id).isOk = false ↔ c.relations id = none) ∧
    (c.relations id = some none → c.read_relation id = .ok none) := by
  refine ⟨?_, ?_, ?_, ?_, ?_, ?_⟩
  · rcases h : c.nodes id with _ | (_ | ⟨la, lo⟩) <;>
      simp [OsmCache.read_node, h, Except.isOk, Except.toBool]
  · intro h
    simp [OsmCache.read_node, h]
  · rcases h : c.ways id with _ | (_ | nodes) <;>
      simp [OsmCache.read_way, h, Except.isOk, Except.toBool]
  · intro h
    simp [OsmCache.read_way, h]
  · rcases h : c.relations id with _ | v <;>
      simp [OsmCache.read_relation, h, Except.isOk, Except.toBool]
  · intro h
    simp [OsmCache.read_relation, h]

/-- Example cache used to witness the `OsmCache` read contract. -/
def cacheEx : OsmCache where
  nodes := fun id => if id = 1 then some none else if id = 2 then some (some (4, 5)) else none
  ways := fun id => if id = 1 then some none else none
  relations := fun id => if id = 1 then some none else none

/-- Witness for C9 at a concrete cache. -/
theorem c9_witness :
    OsmCache.read_node cacheEx 1 = .ok none ∧
    OsmCache.read_way cacheEx 1 = .ok none ∧
    OsmCache.read_relation cacheEx 1 = .ok none ∧
    ((OsmCache.read_node cacheEx 3).isOk = false) :=
  ⟨(c9_cache_read_panics_iff_missing cacheEx 1).2.1 rfl,
   (c9_cache_read_panics_iff_missing cacheEx 1).2.2.2.1 rfl,
   (c9_cache_read_panics_iff_missing cacheEx 1).2.2.2.2.2 rfl,
   (c9_cache_read_panics_iff_missing cacheEx 3).1.mpr rfl⟩

/-! ### Claim C4: polygon-tree child ordering -/

theorem bytesLe_total (xs ys : List Nat) : bytesLe xs ys = true ∨ bytesLe ys xs = true := by
  induction xs generalizing ys with
  | nil => left; rfl
  | cons x xs ih =>
    cases ys with
    | nil => right; rfl
    | cons y ys =>
      rcases Nat.lt_trichotomy x y with h | h | h
      · left
        simp [bytesLe, h]
      · subst h
        rcases ih ys with h2 | h2
        · left
          simp [bytesLe, h2]
        · right
          simp [bytesLe, h2]
      · right
        simp [bytesLe, h]

theorem bytesLe_trans (xs ys zs : List Nat) (h1 : bytesLe xs ys = true)
    (h2 : bytesLe ys zs = true) : bytesLe xs zs = true := by
  induction xs generalizing ys zs with
  | nil => rfl
  | cons x xs ih =>
    cases ys with
    | nil => simp [bytesLe] at h1
    | cons y ys =>
      cases zs with
      | nil => simp [bytesLe] at h2
      | cons z zs =>
        simp only [bytesLe, Bool.or_eq_true, Bool.and_eq_true, decide_eq_true_eq] at h1 h2 ⊢
        rcases h1 with h1 | ⟨rfl, h1⟩
        · rcases h2 with h2 | ⟨rfl, h2⟩
          · left; omega
          · left; exact h1
        · rcases h2 with h2 | ⟨rfl, h2⟩
          · left; exact h2
          · right; exact ⟨rfl, ih ys zs h1 h2⟩

/-- C4 (amended): `sortInners` is a stable sort of the children by the key
"polygon-file path, or the literal string `None` when the child has no
file": it permutes the children and orders them by byte-wise comparison of
that key.  Children without a file are therefore not always last: they sit
wherever `"None"` falls among the paths. -/
theorem c4_children_sorted_by_key (l : List PolyEntry) :
    List.Sorted (fun a b => bytesLe (polyFileKey a) (polyFileKey b) = true) (sortInners l) ∧
    (sortInners l).Perm l := by
  haveI : IsTotal PolyEntry (fun a b => bytesLe (polyFileKey a) (polyFileKey b) = true) :=
    ⟨fun a b => bytesLe_total _ _⟩
  haveI : IsTrans PolyEntry (fun a b => bytesLe (polyFileKey a) (polyFileKey b) = true) :=
    ⟨fun a b c => bytesLe_trans _ _ _⟩
  exact ⟨List.sorted_insertionSort _ _, List.perm_insertionSort _ _⟩

/-- The UTF-8 bytes of the path `"tests/a.poly"`. -/
def pathTestsAPoly : List Nat := [116, 101, 115, 116, 115, 47, 97, 46, 112, 111, 108, 121]

/-- C4 (counterexample): with one child having the polygon file
`tests/a.poly` and one child having no file, the sort places the child
without a file first, not last, because its key is the literal string
`"None"` and `"N" < "t"` byte-wise. -/
theorem c4_counterexample :
    sortInners [⟨some pathTestsAPoly⟩, ⟨none⟩] = [⟨none⟩, ⟨some pathTestsAPoly⟩] ∧
    (⟨none⟩ : PolyEntry).file = none ∧ bytesLe nonePathKey pathTestsAPoly = true := by
  exact ⟨by decide, rfl, by decide⟩

/-! ### Claim C5: 40-bit packed identifiers -/

/-- C5: `bytes5_to_int (int_to_bytes5 n) = n` holds for all `n < 2 ^ 40` and
`int_to_bytes5` panics for `n > 2 ^ 40` — but, contrary to the claim, at
exactly `n = 2 ^ 40` it does not panic and instead silently truncates to the
all-zero 5-byte value, which decodes to `0`. -/
theorem c5_int_to_bytes5_boundary :
    OsmBin.int_to_bytes5 (2 ^ 40) = Except.ok [0, 0, 0, 0, 0] ∧
    (OsmBin.int_to_bytes5 (2 ^ 40)).map OsmBin.bytes5_to_int = Except.ok 0 ∧
    (∀ n : Nat, n < 2 ^ 40 →
      (OsmBin.int_to_bytes5 n).map OsmBin.bytes5_to_int = Except.ok n) ∧
    (∀ n : Nat, 2 ^ 40 < n → (OsmBin.int_to_bytes5 n).isOk = false) := by
  refine ⟨by rfl, by rfl, ?_, ?_⟩
  · intro n h
    rw [OsmBin.int_to_bytes5, if_neg (by omega)]
    simp only [Except.map]
    rw [OsmBin.bytes5_to_int, bytesToNatBE_natToBytesBE 5 n (by norm_num; omega)]
  · intro n h
    rw [OsmBin.int_to_bytes5, if_pos h]
    rfl

/-- Witness for C5's quantified parts at concrete inputs. -/
theorem c5_witness :
    ((3 : Nat) < 2 ^ 40 ∧
      (OsmBin.int_to_bytes5 3).map OsmBin.bytes5_to_int = Except.ok 3) ∧
    (2 ^ 40 < (2 ^ 41 : Nat) ∧ (OsmBin.int_to_bytes5 (2 ^ 41)).isOk = false) :=
  ⟨⟨by norm_num, c5_int_to_bytes5_boundary.2.2.1 3 (by norm_num)⟩,
   ⟨by norm_num, c5_int_to_bytes5_boundary.2.2.2 (2 ^ 41) (by norm_num)⟩⟩

/-! ### Facts about `OsmBin.write_node` -/

namespace OsmBin

theorem coord_to_bytes4_length (d : Int) : (coord_to_bytes4 d).length = 4 := by
  simp [coord_to_bytes4, int_to_bytes4, natToBytesBE_length]

/-- Reading back the first part of a written concatenation. -/
theorem readBytes_writeBytes_append_left (f : Nat → Nat) (a : Nat) (bs1 bs2 : List Nat) :
    readBytes (writeBytes f a (bs1 ++ bs2)) a bs1.length = bs1 := by
  have h := readBytes_writeBytes_slice f a (bs1 ++ bs2) 0 bs1.length
    (by simp)
  simpa [List.take_left] using h

/-- Reading back the second part of a written concatenation. -/
theorem readBytes_writeBytes_append_right (f : Nat → Nat) (a : Nat) (bs1 bs2 : List Nat) :
    readBytes (writeBytes f a (bs1 ++ bs2)) (a + bs1.length) bs2.length = bs2 := by
  have h := readBytes_writeBytes_slice f a (bs1 ++ bs2) bs1.length bs2.length
    (by simp)
  simpa [List.drop_left, List.take_length] using h

/-- Whatever branch `write_node` takes (seek or in-place zero padding), the
first half of the node's 8-byte slot holds the encoded latitude
afterwards. -/
theorem write_node_slot_lat (s : State) (node : Node) :
    readBytes (write_node s node).node_crd.data (node.id * 8 % U64) 4 =
      coord_to_bytes4 node.decimicro_lat := by
  have h4 : (coord_to_bytes4 node.decimicro_lat).length = 4 := coord_to_bytes4_length _
  unfold write_node
  dsimp only
  rw [← h4]
  exact readBytes_writeBytes_append_left _ _ _ _

/-- As `write_node_slot_lat`, for the longitude half. -/
theorem write_node_slot_lon (s : State) (node : Node) :
    readBytes (write_node s node).node_crd.data (node.id * 8 % U64 + 4) 4 =
      coord_to_bytes4 node.decimicro_lon := by
  have h4 : (coord_to_bytes4 node.decimicro_lat).length = 4 := coord_to_bytes4_length _
  have h4' : (coord_to_bytes4 node.decimicro_lon).length = 4 := coord_to_bytes4_length _
  unfold write_node
  dsimp only
  exact readBytes_writeBytes_append_right _ (node.id * 8 % U64)
    (coord_to_bytes4 node.decimicro_lat) (coord_to_bytes4 node.decimicro_lon)

theorem write_node_cache (s : State) (node : Node) :
    (write_node s node).cache = s.cache := by
  unfold write_node
  dsimp only
  split <;> [split <;> rfl; rfl]

theorem write_node_relationFiles (s : State) (node : Node) :
    (write_node s node).relationFiles = s.relationFiles := by
  unfold write_node
  dsimp only
  split <;> [split <;> rfl; rfl]

theorem write_node_way_fields (s : State) (node : Node) :
    (write_node s node).way_idx = s.way_idx ∧ (write_node s node).way_data = s.way_data ∧
    (write_node s node).way_free_data = s.way_free_data ∧
    (write_node s node).way_data_size = s.way_data_size := by
  unfold write_node
  dsimp only
  refine ⟨?_, ?_, ?_, ?_⟩ <;> split <;> first | rfl | (split <;> rfl)

end OsmBin

/-! ### Claim C1: the `(0, 0)` node and the absent sentinel -/

/-- C1 (amended): writing a node with decimicro coordinates `(0, 0)` stores
the non-zero byte pattern of `1_800_000_000` in each half of the slot, so
reading it back returns a present node at `(0, 0)` — it is not absent.  The
all-zero "absent" pattern corresponds to decimicro
`(-1_800_000_000, -1_800_000_000)`: a node written with those coordinates is
the one indistinguishable from absent.  (Both statements assume the id has
no stale cache entry, e.g. on a freshly opened store.) -/
theorem c1_zero_node_reads_back_present (s : OsmBin.State) (id : Nat)
    (hc : s.cache.nodes id = none) :
    (OsmBin.read_node
        (OsmBin.write_node s { id := id, decimicro_lat := 0, decimicro_lon := 0 }) id).map
        Prod.fst =
      Except.ok (some { id := id, decimicro_lat := 0, decimicro_lon := 0, tags := none }) ∧
    (OsmBin.read_node
        (OsmBin.write_node s
          { id := id, decimicro_lat := -1800000000, decimicro_lon := -1800000000 }) id).map
        Prod.fst =
      Except.ok none := by
  constructor
  · have hcache : (OsmBin.write_node s
        { id := id, decimicro_lat := 0, decimicro_lon := 0 }).cache.nodes id = none := by
      rw [OsmBin.write_node_cache]; exact hc
    have hlat := OsmBin.write_node_slot_lat s { id := id, decimicro_lat := 0, decimicro_lon := 0 }
    have hlon := OsmBin.write_node_slot_lon s { id := id, decimicro_lat := 0, decimicro_lon := 0 }
    have hcond : ¬(OsmBin.coord_to_bytes4 (0 : Int) = List.replicate 4 0 ∧
        OsmBin.coord_to_bytes4 (0 : Int) = List.replicate 4 0) := by decide
    have hdec : OsmBin.bytes4_to_coord (OsmBin.coord_to_bytes4 (0 : Int)) = 0 := by decide
    simp only [OsmBin.read_node, hcache]
    rw [hlat, hlon, if_neg hcond]
    simp [hdec, Except.map]
  · have hcache : (OsmBin.write_node s
        { id := id, decimicro_lat := -1800000000,
          decimicro_lon := -1800000000 }).cache.nodes id = none := by
      rw [OsmBin.write_node_cache]; exact hc
    have hlat := OsmBin.write_node_slot_lat s
      { id := id, decimicro_lat := -1800000000, decimicro_lon := -1800000000 }
    have hlon := OsmBin.write_node_slot_lon s
      { id := id, decimicro_lat := -1800000000, decimicro_lon := -1800000000 }
    have hcond : OsmBin.coord_to_bytes4 (-1800000000 : Int) = List.replicate 4 0 ∧
        OsmBin.coord_to_bytes4 (-1800000000 : Int) = List.replicate 4 0 := by decide
    simp only [OsmBin.read_node, hcache]
    rw [hlat, hlon, if_pos hcond]
    simp [Except.map]

/-- Witness for C1 at a concrete store and id. -/
theorem c1_witness :
    (OsmBin.freshState.cache.nodes 5 = none) ∧
    (OsmBin.read_node
        (OsmBin.write_node OsmBin.freshState
          { id := 5, decimicro_lat := 0, decimicro_lon := 0 }) 5).map Prod.fst =
      Except.ok (some { id := 5, decimicro_lat := 0, decimicro_lon := 0, tags := none }) :=
  ⟨rfl, (c1_zero_node_reads_back_present OsmBin.freshState 5 rfl).1⟩

/-- C1 (counterexample): on a freshly initialised store, writing node 5 at
decimicro `(0, 0)` and reading it back yields a present node at `(0, 0)`,
not absent as the claim states. -/
theorem c1_counterexample :
    (OsmBin.read_node
        (OsmBin.write_node OsmBin.freshState
          { id := 5, decimicro_lat := 0, decimicro_lon := 0 }) 5).map Prod.fst =
      Except.ok (some { id := 5, decimicro_lat := 0, decimicro_lon := 0, tags := none }) ∧
    (OsmBin.read_node
        (OsmBin.write_node OsmBin.freshState
          { id := 5, decimicro_lat := 0, decimicro_lon := 0 }) 5).map Prod.fst ≠
      Except.ok none := by
  refine ⟨by rfl, ?_⟩
  intro h
  rw [show (OsmBin.read_node
      (OsmBin.write_node OsmBin.freshState
        { id := 5, decimicro_lat := 0, decimicro_lon := 0 }) 5).map Prod.fst =
      Except.ok (some { id := 5, decimicro_lat := 0, decimicro_lon := 0, tags := none })
    from rfl] at h
  simp at h

/-! ### Claim C3: relation write/read round-trip and metadata -/

/-- C3 (amended): writing a relation and reading it back on the same store
returns the relation in full — members, tags, and the metadata fields
(version, timestamp, uid, user, changeset) and bbox when present, since the
JSON serialization only omits fields equal to `None` and deserialization
restores those as `None`.  (Assumes the id has no stale cache entry, e.g. on
a freshly opened store.) -/
theorem c3_relation_roundtrip_full (s : OsmBin.State) (r : Relation)
    (hc : s.cache.relations r.id = none) :
    (OsmBin.read_relation (OsmBin.write_relation s r) r.id).map Prod.fst =
      Except.ok (some r) := by
  have hcache : (OsmBin.write_relation s r).cache.relations r.id = none := hc
  have hfile : (OsmBin.write_relation s r).relationFiles (OsmBin.relationKey r.id) = some r := by
    simp [OsmBin.write_relation]
  simp [OsmBin.read_relation, hcache, hfile, Except.map]

/-- Example relation carrying metadata. -/
def relEx : Relation := { id := 1, members := [], tags := none, version := some 7 }

/-- Witness for C3 at a concrete store and relation. -/
theorem c3_witness :
    (OsmBin.freshState.cache.relations 1 = none) ∧
    (OsmBin.read_relation (OsmBin.write_relation OsmBin.freshState relEx) 1).map Prod.fst =
      Except.ok (some relEx) :=
  ⟨rfl, c3_relation_roundtrip_full OsmBin.freshState relEx rfl⟩

/-- C3 (counterexample): a relation with `version = Some 7` written and read
back still has `version = Some 7`, refuting "metadata fields are not
persisted and come back absent". -/
theorem c3_counterexample :
    (OsmBin.read_relation (OsmBin.write_relation OsmBin.freshState relEx) 1).map
        (fun p => p.fst.map Relation.version) =
      Except.ok (some (some 7)) ∧ relEx.version = some 7 := by
  exact ⟨by rfl, rfl⟩

/-! ### Claim C10: deleting an absent way is a no-op -/

/-- An absent `way.idx` slot makes the delete branch return immediately,
only moving the read position. -/
theorem update_way_delete_absent (s : OsmBin.State) (wayId : Nat)
    (h : readBytes s.way_idx.data (wayId * 5 % U64) 5 = List.replicate 5 0) :
    OsmBin.update_way_delete s wayId =
      .ok { s with way_idx.pos := wayId * 5 % U64 + 5 } := by
  unfold OsmBin.update_way_delete
  dsimp only
  rw [if_pos h]

/-- C10: calling `update_way` with action `Delete` on a way whose `way.idx`
slot reads as all zeros (absent way; ids past the end of `way.idx` also read
as zeros) returns `Ok` and leaves `way.idx` contents, `way.data`, the
in-memory free-list — and everything else except the `way.idx` read
position — unchanged; repeating the delete returns the very same state, so
deleting an absent way twice is indistinguishable from deleting it once. -/
theorem c10_delete_absent_way_noop (s : OsmBin.State) (w : Way)
    (h : readBytes s.way_idx.data (w.id * 5 % U64) 5 = List.replicate 5 0) :
    ∃ s', OsmBin.update_way s w Action.Delete = .ok s' ∧
      s'.way_idx.data = s.way_idx.data ∧
      s'.way_data = s.way_data ∧
      s'.way_free_data = s.way_free_data ∧
      s'.way_data_size = s.way_data_size ∧
      s'.node_crd = s.node_crd ∧
      s'.relationFiles = s.relationFiles ∧
      s'.cache = s.cache ∧
      OsmBin.update_way s' w Action.Delete = .ok s' := by
  refine ⟨{ s with way_idx.pos := w.id * 5 % U64 + 5 }, ?_, rfl, rfl, rfl, rfl, rfl, rfl, rfl, ?_⟩
  · rw [OsmBin.update_way, if_pos rfl]
    exact update_way_delete_absent s w.id h
  · rw [OsmBin.update_way, if_pos rfl]
    exact update_way_delete_absent _ w.id h

/-- Witness for C10 on a fresh store. -/
theorem c10_witness :
    ∃ s', OsmBin.update_way OsmBin.freshState { id := 3 } Action.Delete = .ok s' ∧
      s'.way_idx.data = OsmBin.freshState.way_idx.data ∧
      s'.way_data = OsmBin.freshState.way_data ∧
      s'.way_free_data = OsmBin.freshState.way_free_data ∧
      s'.way_data_size = OsmBin.freshState.way_data_size ∧
      s'.node_crd = OsmBin.freshState.node_crd ∧
      s'.relationFiles = OsmBin.freshState.relationFiles ∧
      s'.cache = OsmBin.freshState.cache ∧
      OsmBin.update_way s' { id := 3 } Action.Delete = .ok s' :=
  c10_delete_absent_way_noop OsmBin.freshState { id := 3 } (by decide)

/-! ### Claim C6: way free-list reuse on write -/

theorem readBytes_writeBytes_all_n (f : Nat → Nat) (a : Nat) (bs : List Nat) (n : Nat)
    (h : bs.length = n) : readBytes (writeBytes f a bs) a n = bs :=
  h ▸ readBytes_writeBytes_all f a bs

theorem readBytes_writeBytes_append_left_n (f : Nat → Nat) (a : Nat) (bs1 bs2 : List Nat)
    (n : Nat) (h : bs1.length = n) : readBytes (writeBytes f a (bs1 ++ bs2)) a n = bs1 :=
  h ▸ OsmBin.readBytes_writeBytes_append_left f a bs1 bs2

namespace OsmBin

theorem mapM_int_to_bytes5 (l : List Nat) (h : ∀ x ∈ l, x ≤ 2 ^ 40) :
    l.mapM int_to_bytes5 = .ok (l.map (natToBytesBE 5)) := by
  induction l with
  | nil => rfl
  | cons x xs ih =>
    have hx : int_to_bytes5 x = .ok (natToBytesBE 5 x) := by
      rw [int_to_bytes5, if_neg (by have := h x (by simp); omega)]
    rw [List.mapM_cons, hx, ih (fun y hy => h y (by simp [hy]))]
    rfl

theorem flatten_map_bytes5_length (l : List Nat) :
    ((l.map (natToBytesBE 5)).flatten).length = 5 * l.length := by
  induction l with
  | nil => simp
  | cons x xs ih =>
    simp only [List.map_cons, List.flatten_cons, List.length_append, ih,
      natToBytesBE_length, List.length_cons]
    ring

theorem int_to_bytes2_length (d : Nat) : (int_to_bytes2 d).length = 2 :=
  natToBytesBE_length 2 _

/-- Full characterisation of `write_way_alloc` when the ids fit and the
chosen offset decodes correctly: the record lands at `addr` (the head of the
free-list bucket for the exact node count, or the current end of `way.data`
when that bucket is empty), the bucket is popped, and `way_data_size` grows
to cover the record. -/
theorem write_way_alloc_spec (s : State) (w : Way) (addr : Nat)
    (hlen : w.nodes.length < 2 ^ 16)
    (hids : ∀ x ∈ w.nodes, x ≤ 2 ^ 40)
    (haddr : addr < 2 ^ 40)
    (hmatch : (match s.way_free_data w.nodes.length with
               | [] => s.way_data_size
               | a :: _ => a) = addr) :
    ∃ s', write_way_alloc s w = .ok s' ∧
      bytes5_to_int (readBytes s'.way_idx.data (w.id * 5 % U64) 5) = addr ∧
      readBytes s'.way_data.data addr 2 = int_to_bytes2 w.nodes.length ∧
      s'.way_free_data w.nodes.length = (s.way_free_data w.nodes.length).tail ∧
      (∀ k, k ≠ w.nodes.length → s'.way_free_data k = s.way_free_data k) ∧
      s'.way_data_size = max s.way_data_size (addr + (2 + 5 * w.nodes.length)) ∧
      s'.cache = s.cache := by
  have hmod : w.nodes.length % 2 ^ 16 = w.nodes.length := Nat.mod_eq_of_lt hlen
  have hmapM := mapM_int_to_bytes5 w.nodes hids
  have hptr : int_to_bytes5 addr = .ok (natToBytesBE 5 addr) := by
    rw [int_to_bytes5, if_neg (by omega)]
  have hrecordlen :
      (int_to_bytes2 w.nodes.length ++ (w.nodes.map (natToBytesBE 5)).flatten).length =
        2 + 5 * w.nodes.length := by
    rw [List.length_append, int_to_bytes2_length, flatten_map_bytes5_length]
  have hdecode : bytes5_to_int (natToBytesBE 5 addr) = addr := by
    rw [bytes5_to_int, bytesToNatBE_natToBytesBE 5 addr (by norm_num; omega)]
  unfold write_way_alloc
  dsimp only
  rw [hmod, hmatch, hmapM, hptr]
  dsimp only
  split
  case isTrue hpos =>
    split
    case isTrue hpad =>
      refine ⟨_, rfl, ?_, ?_, ?_, ?_, ?_, rfl⟩
      · rw [readBytes_writeBytes_all_n _ _ _ _ (natToBytesBE_length _ _), hdecode]
      · exact readBytes_writeBytes_append_left_n _ _ _ _ _ (int_to_bytes2_length _)
      · simp
      · intro k hk
        simp [hk]
      · rw [hrecordlen]
    case isFalse hpad =>
      refine ⟨_, rfl, ?_, ?_, ?_, ?_, ?_, rfl⟩
      · rw [readBytes_writeBytes_all_n _ _ _ _ (natToBytesBE_length _ _), hdecode]
      · exact readBytes_writeBytes_append_left_n _ _ _ _ _ (int_to_bytes2_length _)
      · simp
      · intro k hk
        simp [hk]
      · rw [hrecordlen]
  case isFalse hpos =>
    refine ⟨_, rfl, ?_, ?_, ?_, ?_, ?_, rfl⟩
    · rw [readBytes_writeBytes_all_n _ _ _ _ (natToBytesBE_length _ _), hdecode]
    · exact readBytes_writeBytes_append_left_n _ _ _ _ _ (int_to_bytes2_length _)
    · simp
    · intro k hk
      simp [hk]
    · rw [hrecordlen]

end OsmBin

/-- C6 (amended): on a store where the written way's `way.idx` slot is empty
(so the initial self-delete of `write_way` is a no-op), the record of a way
with exactly `n` nodes is placed at the head of the free-list bucket for
`n` — the most recently freed offset, e.g. the offset freed by deleting a
way with `n` nodes — popping the bucket and leaving `way.data` unextended
when the freed record fits; only when the bucket for the exact node count is
empty is the record written at the current end of `way.data`, which then
grows by the record size. -/
theorem c6_way_free_list_reuse (s : OsmBin.State) (w : Way) (a : Nat) (rest : List Nat)
    (hslot : readBytes s.way_idx.data (w.id * 5 % U64) 5 = List.replicate 5 0)
    (hlen : w.nodes.length < 2 ^ 16)
    (hids : ∀ x ∈ w.nodes, x ≤ 2 ^ 40) :
    (s.way_free_data w.nodes.length = a :: rest → a < 2 ^ 40 →
      ∃ s', OsmBin.write_way s w = .ok s' ∧
        OsmBin.bytes5_to_int (readBytes s'.way_idx.data (w.id * 5 % U64) 5) = a ∧
        readBytes s'.way_data.data a 2 = OsmBin.int_to_bytes2 w.nodes.length ∧
        s'.way_free_data w.nodes.length = rest ∧
        (a + (2 + 5 * w.nodes.length) ≤ s.way_data_size →
          s'.way_data_size = s.way_data_size)) ∧
    (s.way_free_data w.nodes.length = [] → s.way_data_size < 2 ^ 40 →
      ∃ s', OsmBin.write_way s w = .ok s' ∧
        OsmBin.bytes5_to_int (readBytes s'.way_idx.data (w.id * 5 % U64) 5) =
          s.way_data_size ∧
        readBytes s'.way_data.data s.way_data_size 2 = OsmBin.int_to_bytes2 w.nodes.length ∧
        s'.way_data_size = s.way_data_size + (2 + 5 * w.nodes.length)) := by
  constructor
  · intro hb ha
    unfold OsmBin.write_way
    dsimp only
    by_cases hinit : w.id * 5 % U64 < s.way_idx_init_size
    · rw [if_pos hinit, update_way_delete_absent s w.id hslot]
      dsimp only
      obtain ⟨s', hok, h1, h2, h3, h4, h5, h6⟩ :=
        OsmBin.write_way_alloc_spec { s with way_idx.pos := w.id * 5 % U64 + 5 } w a hlen hids ha
          (by rw [show ({ s with way_idx.pos := w.id * 5 % U64 + 5 } :
                OsmBin.State).way_free_data w.nodes.length = a :: rest from hb])
      refine ⟨s', hok, h1, h2, ?_, ?_⟩
      · rw [h3, show ({ s with way_idx.pos := w.id * 5 % U64 + 5 } :
            OsmBin.State).way_free_data w.nodes.length = a :: rest from hb]
        rfl
      · intro hle
        rw [h5]
        exact Nat.max_eq_left hle
    · rw [if_neg hinit]
      dsimp only
      obtain ⟨s', hok, h1, h2, h3, h4, h5, h6⟩ :=
        OsmBin.write_way_alloc_spec s w a hlen hids ha (by rw [hb])
      refine ⟨s', hok, h1, h2, ?_, ?_⟩
      · rw [h3, hb]
        rfl
      · intro hle
        rw [h5]
        exact Nat.max_eq_left hle
  · intro hb hsize
    unfold OsmBin.write_way
    dsimp only
    by_cases hinit : w.id * 5 % U64 < s.way_idx_init_size
    · rw [if_pos hinit, update_way_delete_absent s w.id hslot]
      dsimp only
      obtain ⟨s', hok, h1, h2, h3, h4, h5, h6⟩ :=
        OsmBin.write_way_alloc_spec { s with way_idx.pos := w.id * 5 % U64 + 5 } w
          s.way_data_size hlen hids hsize
          (by rw [show ({ s with way_idx.pos := w.id * 5 % U64 + 5 } :
                OsmBin.State).way_free_data w.nodes.length = [] from hb])
      refine ⟨s', hok, h1, h2, ?_⟩
      rw [h5]
      exact Nat.max_eq_right (Nat.le_add_right _ _)
    · rw [if_neg hinit]
      dsimp only
      obtain ⟨s', hok, h1, h2, h3, h4, h5, h6⟩ :=
        OsmBin.write_way_alloc_spec s w s.way_data_size hlen hids hsize (by rw [hb])
      refine ⟨s', hok, h1, h2, ?_⟩
      rw [h5]
      exact Nat.max_eq_right (Nat.le_add_right _ _)

/-- Store with one freed 2-node slot at offset 10 in the free-list bucket. -/
def storeBucket10 : OsmBin.State := { OsmBin.freshState with
  way_free_data := fun k => if k = 2 then [10] else [],
  way_data_size := 30 }

/-- Witness for C6: on `storeBucket10` the next 2-node way reuses offset 10
and empties the bucket; on the fresh store (empty bucket) the record goes to
the end of `way.data` (offset 2, just after the sentinel). -/
theorem c6_witness :
    (∃ s', OsmBin.write_way storeBucket10 { id := 3, nodes := [100, 200] } = .ok s' ∧
      OsmBin.bytes5_to_int (readBytes s'.way_idx.data (3 * 5 % U64) 5) = 10 ∧
      readBytes s'.way_data.data 10 2 = OsmBin.int_to_bytes2 2 ∧
      s'.way_free_data 2 = [] ∧
      (10 + (2 + 5 * 2) ≤ storeBucket10.way_data_size →
        s'.way_data_size = storeBucket10.way_data_size)) ∧
    (∃ s', OsmBin.write_way OsmBin.freshState { id := 3, nodes := [100, 200] } = .ok s' ∧
      OsmBin.bytes5_to_int (readBytes s'.way_idx.data (3 * 5 % U64) 5) =
        OsmBin.freshState.way_data_size ∧
      readBytes s'.way_data.data OsmBin.freshState.way_data_size 2 =
        OsmBin.int_to_bytes2 2 ∧
      s'.way_data_size = OsmBin.freshState.way_data_size + (2 + 5 * 2)) :=
  ⟨(c6_way_free_list_reuse storeBucket10 { id := 3, nodes := [100, 200] } 10 []
      (by decide) (by decide) (by decide)).1 rfl (by decide),
   (c6_way_free_list_reuse OsmBin.freshState { id := 3, nodes := [100, 200] } 10 []
      (by decide) (by decide) (by decide)).2 rfl (by decide)⟩

/-- Store in which way 3 (2 nodes, record at offset 20) is live inside the
initial `way.idx`, and a previous deletion of another 2-node way has pushed
offset 10 onto the free-list bucket for 2. -/
def storeLiveWay3 : OsmBin.State := { OsmBin.freshState with
  way_idx := ⟨fun j => if j = 19 then 20 else 0, 0⟩,
  way_idx_init_size := 20,
  way_data := ⟨fun j => if j = 21 then 2 else if j = 26 then 1 else if j = 31 then 2 else
    if j < 2 then 45 else 0, 0⟩,
  way_data_size := 32,
  way_free_data := fun k => if k = 2 then [10] else [] }

/-- C6 (counterexample): in `storeLiveWay3` a 2-node way was freed at offset
10, yet the next `write_way` of a 2-node way (id 3, which is still stored)
places its record at offset 20 — its own just-freed offset — not at 10:
`write_way` first deletes the existing way, pushing 20 on the bucket, and
pops that instead of the earlier freed offset. -/
theorem c6_counterexample :
    storeLiveWay3.way_free_data 2 = [10] ∧
    readBytes storeLiveWay3.way_data.data 20 2 = OsmBin.int_to_bytes2 2 ∧
    (OsmBin.write_way storeLiveWay3 { id := 3, nodes := [7, 8] }).map
      (fun s' => OsmBin.bytes5_to_int (readBytes s'.way_idx.data (3 * 5 % U64) 5)) =
      Except.ok 20 ∧
    (20 : Nat) ≠ 10 :=
  ⟨rfl, by decide, by rfl, by decide⟩

/-! ### Claim C2: cache effects of the store operations -/

theorem except_map_eq_ok {ε α β : Type} (f : α → β) (x : Except ε α) (y : β)
    (h : x.map f = .ok y) : ∃ a, x = .ok a ∧ f a = y := by
  cases x with
  | error e => simp [Except.map] at h
  | ok a => exact ⟨a, rfl, by simpa [Except.map] using h⟩

namespace OsmBin

/-- Cache footprint of `read_node`: only the node entry of the read id is
touched. -/
theorem read_node_state (s : State) (i : Nat) (r : Option Node) (s' : State)
    (h : read_node s i = .ok (r, s')) :
    s'.cache.ways = s.cache.ways ∧ s'.cache.relations = s.cache.relations ∧
    (∀ id, id ≠ i → s'.cache.nodes id = s.cache.nodes id) := by
  unfold read_node at h
  split at h
  case h_1 v heq =>
    obtain ⟨a, hx, hfa⟩ := except_map_eq_ok _ _ _ h
    obtain ⟨rfl, rfl⟩ := Prod.mk.injEq .. ▸ hfa
    exact ⟨rfl, rfl, fun _ _ => rfl⟩
  case h_2 heq =>
    dsimp only at h
    split at h <;>
      (cases h
       refine ⟨rfl, rfl, fun id hne => ?_⟩
       simp [mapInsert, hne])

/-- Cache footprint of `read_way`. -/
theorem read_way_state (s : State) (i : Nat) (r : Option Way) (s' : State)
    (h : read_way s i = .ok (r, s')) :
    s'.cache.nodes = s.cache.nodes ∧ s'.cache.relations = s.cache.relations ∧
    (∀ id, id ≠ i → s'.cache.ways id = s.cache.ways id) := by
  unfold read_way at h
  split at h
  case h_1 v heq =>
    obtain ⟨a, hx, hfa⟩ := except_map_eq_ok _ _ _ h
    obtain ⟨rfl, rfl⟩ := Prod.mk.injEq .. ▸ hfa
    exact ⟨rfl, rfl, fun _ _ => rfl⟩
  case h_2 heq =>
    dsimp only at h
    split at h
    · cases h
      refine ⟨rfl, rfl, fun id hne => ?_⟩
      simp [mapInsert, hne]
    · split at h
      · exact absurd h (by simp)
      · split at h
        · exact absurd h (by simp)
        · cases h
          refine ⟨rfl, rfl, fun id hne => ?_⟩
          simp [mapInsert, hne]

/-- Cache footprint of `read_relation`. -/
theorem read_relation_state (s : State) (i : Nat) (r : Option Relation) (s' : State)
    (h : read_relation s i = .ok (r, s')) :
    s'.cache.nodes = s.cache.nodes ∧ s'.cache.ways = s.cache.ways ∧
    (∀ id, id ≠ i → s'.cache.relations id = s.cache.relations id) := by
  unfold read_relation at h
  split at h
  case h_1 v heq =>
    obtain ⟨a, hx, hfa⟩ := except_map_eq_ok _ _ _ h
    obtain ⟨rfl, rfl⟩ := Prod.mk.injEq .. ▸ hfa
    exact ⟨rfl, rfl, fun _ _ => rfl⟩
  case h_2 heq =>
    split at h <;>
      (cases h
       refine ⟨rfl, rfl, fun id hne => ?_⟩
       simp [mapInsert, hne])

/-- The delete branch of `update_way` never touches the cache. -/
theorem update_way_delete_cache (s s' : State) (i : Nat)
    (h : update_way_delete s i = .ok s') : s'.cache = s.cache := by
  unfold update_way_delete at h
  dsimp only at h
  split at h
  · cases h; rfl
  · split at h
    · exact absurd h (by simp)
    · cases h; rfl

/-- `write_way_alloc` never touches the cache. -/
theorem write_way_alloc_cache (s s' : State) (w : Way)
    (h : write_way_alloc s w = .ok s') : s'.cache = s.cache := by
  unfold write_way_alloc at h
  dsimp only at h
  split at h
  · exact absurd h (by simp)
  · split at h
    · exact absurd h (by simp)
    · split at h
      · split at h <;> (cases h; rfl)
      · cases h; rfl

/-- `write_way` never touches the cache. -/
theorem write_way_cache (s s' : State) (w : Way)
    (h : write_way s w = .ok s') : s'.cache = s.cache := by
  unfold write_way at h
  dsimp only at h
  split at h
  case h_1 e heq => exact absurd h (by simp)
  case h_2 s1 heq =>
    by_cases hinit : w.id * 5 % U64 < s.way_idx_init_size
    · rw [if_pos hinit] at heq
      rw [write_way_alloc_cache s1 s' w h, update_way_delete_cache s s1 w.id heq]
    · rw [if_neg hinit] at heq
      cases heq
      exact write_way_alloc_cache _ s' w h

/-- `update_way` never touches the cache. -/
theorem update_way_cache (s s' : State) (w : Way) (a : Action)
    (h : update_way s w a = .ok s') : s'.cache = s.cache := by
  unfold update_way at h
  split at h
  · exact update_way_delete_cache s s' w.id h
  · exact write_way_cache s s' w h

/-- `update_node` never touches the cache. -/
theorem update_node_cache (s : State) (node : Node) (a : Action) :
    (update_node s node a).cache = s.cache := by
  unfold update_node
  split
  · rfl
  · exact write_node_cache s node

/-- `write_relation` and `update_relation` never touch the cache. -/
theorem update_relation_cache (s : State) (r : Relation) (a : Action) :
    (update_relation s r a).cache = s.cache := by
  unfold update_relation write_relation
  split <;> rfl

/-- Applying one operation only changes the cache entry of the id (and kind)
it reads; writes and deletes never touch the cache. -/
theorem applyOp_cache (s s' : State) (op : Op) (hok : applyOp s op = .ok s') :
    (∀ id, op ≠ Op.readNode id → s'.cache.nodes id = s.cache.nodes id) ∧
    (∀ id, op ≠ Op.readWay id → s'.cache.ways id = s.cache.ways id) ∧
    (∀ id, op ≠ Op.readRelation id → s'.cache.relations id = s.cache.relations id) := by
  cases op with
  | readNode i =>
    obtain ⟨⟨r, st⟩, hx, rfl⟩ := except_map_eq_ok _ _ _ hok
    obtain ⟨h1, h2, h3⟩ := read_node_state s i r st hx
    exact ⟨fun id hne => h3 id (fun he => hne (by rw [he])),
           fun id _ => by rw [h1], fun id _ => by rw [h2]⟩
  | readWay i =>
    obtain ⟨⟨r, st⟩, hx, rfl⟩ := except_map_eq_ok _ _ _ hok
    obtain ⟨h1, h2, h3⟩ := read_way_state s i r st hx
    exact ⟨fun id _ => by rw [h1], fun id hne => h3 id (fun he => hne (by rw [he])),
           fun id _ => by rw [h2]⟩
  | readRelation i =>
    obtain ⟨⟨r, st⟩, hx, rfl⟩ := except_map_eq_ok _ _ _ hok
    obtain ⟨h1, h2, h3⟩ := read_relation_state s i r st hx
    exact ⟨fun id _ => by rw [h1], fun id _ => by rw [h2],
           fun id hne => h3 id (fun he => hne (by rw [he]))⟩
  | writeNode node =>
    cases hok
    rw [write_node_cache]
    exact ⟨fun _ _ => rfl, fun _ _ => rfl, fun _ _ => rfl⟩
  | writeWay way =>
    rw [write_way_cache s s' way hok]
    exact ⟨fun _ _ => rfl, fun _ _ => rfl, fun _ _ => rfl⟩
  | writeRelation r =>
    cases hok
    exact ⟨fun _ _ => rfl, fun _ _ => rfl, fun _ _ => rfl⟩
  | updateNode node a =>
    cases hok
    rw [update_node_cache]
    exact ⟨fun _ _ => rfl, fun _ _ => rfl, fun _ _ => rfl⟩
  | updateWay way a =>
    rw [update_way_cache s s' way a hok]
    exact ⟨fun _ _ => rfl, fun _ _ => rfl, fun _ _ => rfl⟩
  | updateRelation r a =>
    cases hok
    rw [update_relation_cache]
    exact ⟨fun _ _ => rfl, fun _ _ => rfl, fun _ _ => rfl⟩

/-- Cache preservation over an operation sequence that never reads the
given ids. -/
theorem applyOps_cache (ops : List Op) : ∀ s s', applyOps s ops = .ok s' →
    (∀ id, Op.readNode id ∉ ops → s'.cache.nodes id = s.cache.nodes id) ∧
    (∀ id, Op.readWay id ∉ ops → s'.cache.ways id = s.cache.ways id) ∧
    (∀ id, Op.readRelation id ∉ ops → s'.cache.relations id = s.cache.relations id) := by
  induction ops with
  | nil =>
    intro s s' h
    cases h
    exact ⟨fun _ _ => rfl, fun _ _ => rfl, fun _ _ => rfl⟩
  | cons op rest ih =>
    intro s s' h
    rw [applyOps, List.foldlM_cons] at h
    cases happ : applyOp s op with
    | error e =>
      rw [happ] at h
      have hred : (Except.error e : Except String State) >>=
          (fun init => List.foldlM applyOp init rest) = Except.error e := rfl
      rw [hred] at h
      exact Except.noConfusion h
    | ok s1 =>
      rw [happ] at h
      have h1 : applyOps s1 rest = .ok s' := h
      obtain ⟨hn, hw, hr⟩ := ih s1 s' h1
      obtain ⟨gn, gw, gr⟩ := applyOp_cache s s1 op happ
      refine ⟨fun id hid => ?_, fun id hid => ?_, fun id hid => ?_⟩
      · rw [hn id (fun hm => hid (List.mem_cons_of_mem _ hm)),
            gn id (fun he => hid (he ▸ List.mem_cons_self _ _))]
      · rw [hw id (fun hm => hid (List.mem_cons_of_mem _ hm)),
            gw id (fun he => hid (he ▸ List.mem_cons_self _ _))]
      · rw [hr id (fun hm => hid (List.mem_cons_of_mem _ hm)),
            gr id (fun he => hid (he ▸ List.mem_cons_self _ _))]

/-- After a node delete, a read of the id with no cache entry sees the
zeroed slot and returns absent. -/
theorem read_node_after_delete (s : State) (nd : Node)
    (hc : s.cache.nodes nd.id = none) :
    (read_node (update_node s nd Action.Delete) nd.id).map Prod.fst = .ok none := by
  rw [update_node, if_pos rfl]
  have hlat : readBytes (writeBytes s.node_crd.data (nd.id * 8 % U64) (List.replicate 8 0))
      (nd.id * 8 % U64) 4 = List.replicate 4 0 := by
    have h := readBytes_writeBytes_replicate_zero s.node_crd.data (nd.id * 8 % U64) 8 0 4
      (by omega)
    simpa using h
  have hlon : readBytes (writeBytes s.node_crd.data (nd.id * 8 % U64) (List.replicate 8 0))
      (nd.id * 8 % U64 + 4) 4 = List.replicate 4 0 :=
    readBytes_writeBytes_replicate_zero s.node_crd.data (nd.id * 8 % U64) 8 4 4 (by omega)
  simp only [read_node, hc]
  rw [hlat, hlon, if_pos ⟨rfl, rfl⟩]
  rfl

/-- The delete branch of `update_way` always leaves the way's `way.idx` slot
all-zero (it either already was, or gets zeroed). -/
theorem update_way_delete_ok_slot (s s' : State) (i : Nat)
    (h : update_way_delete s i = .ok s') :
    readBytes s'.way_idx.data (i * 5 % U64) 5 = List.replicate 5 0 := by
  unfold update_way_delete at h
  dsimp only at h
  split at h
  case isTrue hz =>
    cases h
    exact hz
  case isFalse hz =>
    split at h
    · exact absurd h (by simp)
    · cases h
      have hzero := readBytes_writeBytes_replicate_zero s.way_idx.data (i * 5 % U64) 5 0 5
        (by omega)
      simpa using hzero

/-- After a way delete, a read of the id with no cache entry sees the zeroed
`way.idx` slot and returns absent. -/
theorem read_way_after_delete (s s' : State) (wy : Way)
    (hc : s.cache.ways wy.id = none)
    (h : update_way s wy Action.Delete = .ok s') :
    (read_way s' wy.id).map Prod.fst = .ok none := by
  rw [update_way, if_pos rfl] at h
  have hslot := update_way_delete_ok_slot s s' wy.id h
  have hcache := update_way_delete_cache s s' wy.id h
  have hcn : s'.cache.ways wy.id = none := by rw [hcache]; exact hc
  simp only [read_way, hcn]
  rw [hslot, if_pos rfl]
  rfl

/-- After a relation delete, a read of the id with no cache entry sees the
missing file and returns absent. -/
theorem read_relation_after_delete (s : State) (rl : Relation)
    (hc : s.cache.relations rl.id = none) :
    (read_relation (update_relation s rl Action.Delete) rl.id).map Prod.fst = .ok none := by
  rw [update_relation, if_pos rfl]
  simp [read_relation, hc, Except.map]

end OsmBin

/-- C2 (amended): for every open store, entity kind, and finite sequence of
read/write/update operations that succeeds, contains no read of the id for
that kind, and starts with no cache entry for the id, a delete of the id
followed by a read of the id returns absent.  (The restriction on earlier
reads is necessary: reads populate the in-memory cache, deletes do not
invalidate it, and reads are served from the cache first — see the
counterexample.) -/
theorem c2_read_after_delete (s : OsmBin.State) (ops : List OsmBin.Op) (id : Nat)
    (nd : Node) (wy : Way) (rl : Relation) :
    (nd.id = id → OsmBin.Op.readNode id ∉ ops → s.cache.nodes id = none →
      ∀ s', OsmBin.applyOps s (ops ++ [OsmBin.Op.updateNode nd Action.Delete]) = .ok s' →
        (OsmBin.read_node s' id).map Prod.fst = .ok none) ∧
    (wy.id = id → OsmBin.Op.readWay id ∉ ops → s.cache.ways id = none →
      ∀ s', OsmBin.applyOps s (ops ++ [OsmBin.Op.updateWay wy Action.Delete]) = .ok s' →
        (OsmBin.read_way s' id).map Prod.fst = .ok none) ∧
    (rl.id = id → OsmBin.Op.readRelation id ∉ ops → s.cache.relations id = none →
      ∀ s', OsmBin.applyOps s (ops ++ [OsmBin.Op.updateRelation rl Action.Delete]) = .ok s' →
        (OsmBin.read_relation s' id).map Prod.fst = .ok none) := by
  refine ⟨?_, ?_, ?_⟩
  · rintro rfl hmem hc s' hap
    rw [OsmBin.applyOps, List.foldlM_append] at hap
    cases hmid : List.foldlM OsmBin.applyOp s ops with
    | error e =>
      rw [hmid] at hap
      exact absurd hap (by intro hco; exact Except.noConfusion hco)
    | ok s1 =>
      rw [hmid] at hap
      have hap1 : OsmBin.applyOp s1 (OsmBin.Op.updateNode nd Action.Delete) = .ok s' := by
        have h2 : OsmBin.applyOps s1 [OsmBin.Op.updateNode nd Action.Delete] = .ok s' := hap
        rw [OsmBin.applyOps, List.foldlM_cons] at h2
        cases hmid2 : OsmBin.applyOp s1 (OsmBin.Op.updateNode nd Action.Delete) with
        | error e =>
          rw [hmid2] at h2
          exact absurd h2 (by intro hco; exact Except.noConfusion hco)
        | ok s2 =>
          rw [hmid2] at h2
          have h3 : (pure s2 : Except String OsmBin.State) = .ok s' := h2
          rw [show (pure s2 : Except String OsmBin.State) = .ok s2 from rfl] at h3
          rw [h3]
      have hc1 : s1.cache.nodes nd.id = none := by
        rw [(OsmBin.applyOps_cache ops s s1 hmid).1 nd.id hmem]
        exact hc
      have hs' : s' = OsmBin.update_node s1 nd Action.Delete := by
        have : OsmBin.applyOp s1 (OsmBin.Op.updateNode nd Action.Delete) =
            .ok (OsmBin.update_node s1 nd Action.Delete) := rfl
        rw [this] at hap1
        exact (Except.ok.injEq .. ▸ hap1).symm
      rw [hs']
      exact OsmBin.read_node_after_delete s1 nd hc1
  · rintro rfl hmem hc s' hap
    rw [OsmBin.applyOps, List.foldlM_append] at hap
    cases hmid : List.foldlM OsmBin.applyOp s ops with
    | error e =>
      rw [hmid] at hap
      exact absurd hap (by intro hco; exact Except.noConfusion hco)
    | ok s1 =>
      rw [hmid] at hap
      have hap1 : OsmBin.update_way s1 wy Action.Delete = .ok s' := by
        have h2 : OsmBin.applyOps s1 [OsmBin.Op.updateWay wy Action.Delete] = .ok s' := hap
        rw [OsmBin.applyOps, List.foldlM_cons] at h2
        cases hmid2 : OsmBin.update_way s1 wy Action.Delete with
        | error e =>
          have : OsmBin.applyOp s1 (OsmBin.Op.updateWay wy Action.Delete) =
              .error e := hmid2
          rw [this] at h2
          exact absurd h2 (by intro hco; exact Except.noConfusion hco)
        | ok s2 =>
          have : OsmBin.applyOp s1 (OsmBin.Op.updateWay wy Action.Delete) = .ok s2 := hmid2
          rw [this] at h2
          have h3 : (pure s2 : Except String OsmBin.State) = .ok s' := h2
          rw [show (pure s2 : Except String OsmBin.State) = .ok s2 from rfl] at h3
          rw [h3]
      have hc1 : s1.cache.ways wy.id = none := by
        rw [(OsmBin.applyOps_cache ops s s1 hmid).2.1 wy.id hmem]
        exact hc
      exact OsmBin.read_way_after_delete s1 s' wy hc1 hap1
  · rintro rfl hmem hc s' hap
    rw [OsmBin.applyOps, List.foldlM_append] at hap
    cases hmid : List.foldlM OsmBin.applyOp s ops with
    | error e =>
      rw [hmid] at hap
      exact absurd hap (by intro hco; exact Except.noConfusion hco)
    | ok s1 =>
      rw [hmid] at hap
      have hap1 : OsmBin.applyOp s1 (OsmBin.Op.updateRelation rl Action.Delete) = .ok s' := by
        have h2 : OsmBin.applyOps s1 [OsmBin.Op.updateRelation rl Action.Delete] = .ok s' :=
          hap
        rw [OsmBin.applyOps, List.foldlM_cons] at h2
        cases hmid2 : OsmBin.applyOp s1 (OsmBin.Op.updateRelation rl Action.Delete) with
        | error e =>
          rw [hmid2] at h2
          exact absurd h2 (by intro hco; exact Except.noConfusion hco)
        | ok s2 =>
          rw [hmid2] at h2
          have h3 : (pure s2 : Except String OsmBin.State) = .ok s' := h2
          rw [show (pure s2 : Except String OsmBin.State) = .ok s2 from rfl] at h3
          rw [h3]
      have hc1 : s1.cache.relations rl.id = none := by
        rw [(OsmBin.applyOps_cache ops s s1 hmid).2.2 rl.id hmem]
        exact hc
      have hs' : s' = OsmBin.update_relation s1 rl Action.Delete := by
        have : OsmBin.applyOp s1 (OsmBin.Op.updateRelation rl Action.Delete) =
            .ok (OsmBin.update_relation s1 rl Action.Delete) := rfl
        rw [this] at hap1
        exact (Except.ok.injEq .. ▸ hap1).symm
      rw [hs']
      exact OsmBin.read_relation_after_delete s1 rl hc1

/-- State after writing node 5, deleting node 5 on a fresh store. -/
def c2StateNode : OsmBin.State :=
  match OsmBin.applyOps OsmBin.freshState
      ([OsmBin.Op.writeNode { id := 5, decimicro_lat := 7, decimicro_lon := 9 }] ++
        [OsmBin.Op.updateNode { id := 5 } Action.Delete]) with
  | .ok s => s
  | .error _ => OsmBin.freshState

/-- State after writing way 3, deleting way 3 on a fresh store. -/
def c2StateWay : OsmBin.State :=
  match OsmBin.applyOps OsmBin.freshState
      ([OsmBin.Op.writeWay { id := 3, nodes := [1, 2] }] ++
        [OsmBin.Op.updateWay { id := 3 } Action.Delete]) with
  | .ok s => s
  | .error _ => OsmBin.freshState

/-- State after writing relation 4, deleting relation 4 on a fresh store. -/
def c2StateRelation : OsmBin.State :=
  match OsmBin.applyOps OsmBin.freshState
      ([OsmBin.Op.writeRelation { id := 4 }] ++
        [OsmBin.Op.updateRelation { id := 4 } Action.Delete]) with
  | .ok s => s
  | .error _ => OsmBin.freshState

/-- Witness for C2: concrete write-then-delete sequences for each entity
kind on a fresh store, after which the read returns absent. -/
theorem c2_witness :
    (OsmBin.read_node c2StateNode 5).map Prod.fst = .ok none ∧
    (OsmBin.read_way c2StateWay 3).map Prod.fst = .ok none ∧
    (OsmBin.read_relation c2StateRelation 4).map Prod.fst = .ok none :=
  ⟨(c2_read_after_delete OsmBin.freshState
      [OsmBin.Op.writeNode { id := 5, decimicro_lat := 7, decimicro_lon := 9 }] 5
      { id := 5 } { id := 3 } { id := 4 }).1 rfl (by decide) rfl c2StateNode (by rfl),
   (c2_read_after_delete OsmBin.freshState
      [OsmBin.Op.writeWay { id := 3, nodes := [1, 2] }] 3
      { id := 5 } { id := 3 } { id := 4 }).2.1 rfl (by decide) rfl c2StateWay (by rfl),
   (c2_read_after_delete OsmBin.freshState
      [OsmBin.Op.writeRelation { id := 4 }] 4
      { id := 5 } { id := 3 } { id := 4 }).2.2 rfl (by decide) rfl c2StateRelation (by rfl)⟩

/-- The poisoning sequence: write node 5, read it (the read caches the
coordinates), then delete it. -/
def c2BadOps : List OsmBin.Op :=
  [OsmBin.Op.writeNode { id := 5, decimicro_lat := 7, decimicro_lon := 9 },
   OsmBin.Op.readNode 5,
   OsmBin.Op.updateNode { id := 5 } Action.Delete]

/-- C2 (counterexample): on a fresh store, the sequence write node 5 / read
node 5 / delete node 5 succeeds and ends with a delete of id 5, yet the
subsequent read of id 5 returns the node present at `(7, 9)` — the read
before the delete cached the coordinates and `update_node` does not
invalidate the cache — contradicting "a subsequent read of id returns
absent". -/
theorem c2_counterexample :
    (OsmBin.applyOps OsmBin.freshState c2BadOps).isOk = true ∧
    ((OsmBin.applyOps OsmBin.freshState c2BadOps).bind
        (fun s' => (OsmBin.read_node s' 5).map Prod.fst)) =
      Except.ok (some { id := 5, decimicro_lat := 7, decimicro_lon := 9, tags := none }) ∧
    ((OsmBin.applyOps OsmBin.freshState c2BadOps).bind
        (fun s' => (OsmBin.read_node s' 5).map Prod.fst)) ≠ Except.ok none := by
  refine ⟨by rfl, by rfl, ?_⟩
  intro h
  rw [show ((OsmBin.applyOps OsmBin.freshState c2BadOps).bind
      (fun s' => (OsmBin.read_node s' 5).map Prod.fst)) =
      Except.ok (some { id := 5, decimicro_lat := 7, decimicro_lon := 9, tags := none })
    from rfl] at h
  simp at h

/-! ### Claims C7 and C8: the polygon filter -/

theorem seenInsert_mem (l : List Nat) (id : Nat) : id ∈ seenInsert l id := by
  unfold seenInsert
  split
  · assumption
  · exact List.mem_cons_self _ _

theorem seenInsert_idem (l : List Nat) (id : Nat) :
    seenInsert (seenInsert l id) id = seenInsert l id := by
  conv_lhs => rw [seenInsert]
  rw [if_pos (seenInsert_mem l id)]

/-- C7: for every way or relation whose bounding box is absent or does not
intersect the buffered polygon, `update_way` / `update_relation` emit
nothing at all and leave the filter state unchanged. -/
theorem c7_disjoint_bbox_no_output {P : Type} (geo : GeoOps P) (rd : ReaderFns)
    (st : FilterState P) (w : Way) (r : Relation) (aw ar : Action) (fuel : Nat)
    (hw : w.bbox = none ∨ ∀ bb, w.bbox = some bb →
      geo.bboxIntersects bb st.poly_buffered.poly = false)
    (hr : r.bbox = none ∨ ∀ bb, r.bbox = some bb →
      geo.bboxIntersects bb st.poly_buffered.poly = false) :
    OsmXmlFilter.update_way geo rd st w aw = .ok (st, []) ∧
    OsmXmlFilter.update_relation geo rd fuel st r ar = .ok (st, []) := by
  have hbw : OsmXmlFilter.insideBBox geo st w.bbox = false := by
    rcases hb : w.bbox with _ | bb
    · rfl
    · rcases hw with h | h
      · rw [h] at hb
        cases hb
      · simpa [OsmXmlFilter.insideBBox] using h bb hb
  have hbr : OsmXmlFilter.insideBBox geo st r.bbox = false := by
    rcases hb : r.bbox with _ | bb
    · rfl
    · rcases hr with h | h
      · rw [h] at hb
        cases hb
      · simpa [OsmXmlFilter.insideBBox] using h bb hb
  constructor
  · unfold OsmXmlFilter.update_way
    rw [hbw]
    rfl
  · unfold OsmXmlFilter.update_relation
    rw [hbr]
    rfl

/-- Concrete geometry for the filter examples: polygons are tagged by a
`Nat`, tag 0 is the exact square of half-side 10, tag 1 the buffered square
of half-side 20; a bbox intersects when its min corner is low enough. -/
def filterGeoEx : GeoOps Nat where
  pointIntersects := fun p t =>
    p.1.natAbs ≤ (if t = 0 then 10 else 20) && p.2.natAbs ≤ (if t = 0 then 10 else 20)
  bboxIntersects := fun bb t =>
    bb.decimicro_minlon ≤ (if t = 0 then 10 else 20) &&
      bb.decimicro_minlat ≤ (if t = 0 then 10 else 20)

/-- Concrete reader: node 1 is stored at `(15, 15)` (inside the buffered
square, outside the exact one); everything else is absent. -/
def filterReaderEx : ReaderFns where
  read_node := fun id =>
    if id = 1 then .ok (some { id := 1, decimicro_lat := 15, decimicro_lon := 15 })
    else .ok none
  read_way := fun _ => .ok none
  read_relation := fun _ => .ok none

/-- Filter state over `filterGeoEx` with empty seen-sets. -/
def filterStateEx : FilterState Nat :=
  ⟨⟨0, [], [], []⟩, ⟨1, [], [], []⟩⟩

/-- Witness for C7: a way with no bbox and a relation whose bbox does not
intersect the buffered polygon produce no output. -/
theorem c7_witness :
    OsmXmlFilter.update_way filterGeoEx filterReaderEx filterStateEx
      { id := 9, nodes := [1, 2] } Action.Create = .ok (filterStateEx, []) ∧
    OsmXmlFilter.update_relation filterGeoEx filterReaderEx 5 filterStateEx
      { id := 9, bbox := some ⟨30, 40, 30, 40⟩ } Action.Modify = .ok (filterStateEx, []) :=
  c7_disjoint_bbox_no_output filterGeoEx filterReaderEx filterStateEx
    { id := 9, nodes := [1, 2] } { id := 9, bbox := some ⟨30, 40, 30, 40⟩ }
    Action.Create Action.Modify 5
    (Or.inl rfl)
    (Or.inr (fun bb hbb => by cases hbb; decide))

/-- C8 (amended): the node filter emits
* the node with its incoming action, recorded in both seen-sets, when its
  point is in the exact polygon;
* a `Delete`, recorded in the buffered seen-set, when its point is not in
  the exact polygon but is in the buffered polygon, or its id was already in
  the buffered seen-set, or the reader's stored version of the node lies in
  the buffered polygon (this last source is what the original claim
  misses);
* nothing otherwise (point outside the buffered polygon, id unseen, and
  the reader's node absent or outside the buffered polygon).
The exact polygon is assumed to lie inside the buffered one, the contract of
`buffer_polygon`. -/
theorem c8_node_filter_cases {P : Type} (geo : GeoOps P) (rd : ReaderFns)
    (st : FilterState P) (node : Node) (action : Action)
    (hsub : ∀ pt : Int × Int, geo.pointIntersects pt st.poly.poly = true →
      geo.pointIntersects pt st.poly_buffered.poly = true) :
    (geo.pointIntersects (node.decimicro_lon, node.decimicro_lat) st.poly.poly = true →
      OsmXmlFilter.update_node geo rd st node action =
        .ok ({ st with
                 poly.nodes_seen_in_poly := seenInsert st.poly.nodes_seen_in_poly node.id,
                 poly_buffered.nodes_seen_in_poly :=
                   seenInsert st.poly_buffered.nodes_seen_in_poly node.id },
             [OutEvent.node action node])) ∧
    (geo.pointIntersects (node.decimicro_lon, node.decimicro_lat) st.poly.poly = false →
      (geo.pointIntersects (node.decimicro_lon, node.decimicro_lat)
          st.poly_buffered.poly = true ∨
        node.id ∈ st.poly_buffered.nodes_seen_in_poly ∨
        (∃ old : Node, rd.read_node node.id = .ok (some old) ∧
          geo.pointIntersects (old.decimicro_lon, old.decimicro_lat)
            st.poly_buffered.poly = true)) →
      OsmXmlFilter.update_node geo rd st node action =
        .ok ({ st with
                 poly_buffered.nodes_seen_in_poly :=
                   seenInsert st.poly_buffered.nodes_seen_in_poly node.id },
             [OutEvent.node Action.Delete node])) ∧
    (geo.pointIntersects (node.decimicro_lon, node.decimicro_lat)
        st.poly_buffered.poly = false →
      node.id ∉ st.poly_buffered.nodes_seen_in_poly →
      (rd.read_node node.id = .ok none ∨
        (∃ old : Node, rd.read_node node.id = .ok (some old) ∧
          geo.pointIntersects (old.decimicro_lon, old.decimicro_lat)
            st.poly_buffered.poly = false)) →
      OsmXmlFilter.update_node geo rd st node action = .ok (st, [])) := by
  refine ⟨?_, ?_, ?_⟩
  · intro hP
    have hbuf := hsub _ hP
    unfold OsmXmlFilter.update_node
    dsimp only
    rw [hbuf, if_pos rfl]
    dsimp only
    rw [hP, if_pos rfl, if_pos rfl]
  · intro hP hin
    by_cases hbuf : geo.pointIntersects (node.decimicro_lon, node.decimicro_lat)
        st.poly_buffered.poly = true
    · unfold OsmXmlFilter.update_node
      dsimp only
      rw [hbuf, if_pos rfl]
      dsimp only
      rw [hP, if_pos rfl, if_neg (by simp)]
    · have hbuf' : geo.pointIntersects (node.decimicro_lon, node.decimicro_lat)
          st.poly_buffered.poly = false := by
        revert hbuf
        cases geo.pointIntersects (node.decimicro_lon, node.decimicro_lat)
          st.poly_buffered.poly <;> simp
      rcases hin with hin | hin | ⟨old, hrd, hold⟩
      · exact absurd hin hbuf
      · unfold OsmXmlFilter.update_node
        dsimp only
        rw [hbuf', if_neg (by simp), PolyInfo.node_in_poly, if_pos hin]
        dsimp only
        rw [if_pos rfl, hP, if_neg (by simp)]
      · by_cases hseen : node.id ∈ st.poly_buffered.nodes_seen_in_poly
        · unfold OsmXmlFilter.update_node
          dsimp only
          rw [hbuf', if_neg (by simp), PolyInfo.node_in_poly, if_pos hseen]
          dsimp only
          rw [if_pos rfl, hP, if_neg (by simp)]
        · unfold OsmXmlFilter.update_node
          dsimp only
          rw [hbuf', if_neg (by simp), PolyInfo.node_in_poly, if_neg hseen, hrd]
          dsimp only
          rw [hold, if_pos rfl]
          try dsimp only
          rw [if_pos rfl, hP, if_neg (by simp)]
          try dsimp only
          rw [seenInsert_idem]
  · intro hbuf hseen hrd
    unfold OsmXmlFilter.update_node
    dsimp only
    rw [hbuf, if_neg (by simp), PolyInfo.node_in_poly, if_neg hseen]
    rcases hrd with hrd | ⟨old, hrd, hold⟩
    · rw [hrd]
      dsimp only
      rw [if_neg (by simp)]
    · rw [hrd]
      dsimp only
      rw [hold, if_neg (by simp)]
      dsimp only
      rw [if_neg (by simp)]

/-- Node 1 moved to `(30, 30)`, outside even the buffered square. -/
def nodeMovedEx : Node := { id := 1, decimicro_lat := 30, decimicro_lon := 30 }

/-- Witness for C8 at concrete inputs: a node at `(5, 5)` (inside the exact
square) is emitted with its incoming action and recorded in both
seen-sets. -/
theorem c8_witness :
    filterGeoEx.pointIntersects (5, 5) filterStateEx.poly.poly = true ∧
    OsmXmlFilter.update_node filterGeoEx filterReaderEx filterStateEx
        { id := 2, decimicro_lat := 5, decimicro_lon := 5 } Action.Modify =
      .ok ({ filterStateEx with
               poly.nodes_seen_in_poly := seenInsert filterStateEx.poly.nodes_seen_in_poly 2,
               poly_buffered.nodes_seen_in_poly :=
                 seenInsert filterStateEx.poly_buffered.nodes_seen_in_poly 2 },
           [OutEvent.node Action.Modify { id := 2, decimicro_lat := 5, decimicro_lon := 5 }]) :=
  ⟨by decide,
   (c8_node_filter_cases filterGeoEx filterReaderEx filterStateEx
      { id := 2, decimicro_lat := 5, decimicro_lon := 5 } Action.Modify
      (fun pt h => by
        simp only [filterStateEx, filterGeoEx, Bool.and_eq_true, decide_eq_true_eq] at h ⊢
        norm_num at h ⊢
        omega)).1 (by decide)⟩

/-- C8 (counterexample): node 1 arrives at `(30, 30)` — outside the buffered
polygon — with an empty `nodes_in_buffered` set, so by the claim nothing
should be emitted; but its stored position `(15, 15)` is inside the buffered
polygon, so the filter emits a `Delete` for it. -/
theorem c8_counterexample :
    filterGeoEx.pointIntersects
      (nodeMovedEx.decimicro_lon, nodeMovedEx.decimicro_lat)
      filterStateEx.poly_buffered.poly = false ∧
    nodeMovedEx.id ∉ filterStateEx.poly_buffered.nodes_seen_in_poly ∧
    (OsmXmlFilter.update_node filterGeoEx filterReaderEx filterStateEx nodeMovedEx
        Action.Modify).map Prod.snd = Except.ok [OutEvent.node Action.Delete nodeMovedEx] ∧
    [OutEvent.node Action.Delete nodeMovedEx] ≠ ([] : List OutEvent) :=
  ⟨by decide, by decide, by rfl, by decide⟩

end OsmRepl
